import Mathlib

/-! The risr deployment manager: data model and operations.

Shallow embedding of `pkg/deployments/v1alpha1/manager.go`,
`pkg/stacks/v1alpha1/stack.go` and `pkg/util/strings.go`.

Conventions of the embedding:

* a Go pointer field (`*string`, `*int64`, `*bool`, `*T`) is an `Option`;
  dereferencing `none` is the run-time panic `Result.panic`;
* `int64` values are `Int`; the only arithmetic is counting the elements of a
  slice, which cannot leave the `int64` range;
* the cloud provider is a record of transition functions over an abstract
  state `σ`; every call the manager issues is appended, with the error it
  returned, to the trace of the `World`;
* `uuid.New().String()` is a parameter of the builders.
-/

namespace Risr

/-! ## pkg/util/strings.go -/

/-- The `Contains` of `pkg/util`: linear search of `needle` in `haystack`. -/
def Contains (needle : String) : List String → Bool
  | [] => false
  | element :: rest => if needle = element then true else Contains needle rest

/-! ## pkg/stacks/v1alpha1/stack.go -/

/-- The `Stack` struct. `Tags` is the Go map, listed in the order in which one
`range` over it yields its entries. -/
structure Stack where
  Name : String
  AMI : String
  SubnetIDs : List String
  SecurityGroupIDs : List (Option String)
  InstanceType : String
  KeyName : Option String
  UserData : Option String
  Replicas : Int
  IamInstanceProfile : Option String
  TargetGroupARN : Option String
  HealthCheckGracePeriod : Option Int
  Tags : List (String × String)
deriving DecidableEq, Repr

/-! ## Provider SDK shapes used by the manager -/

/-- The `autoscaling.Tag` request shape (fields the manager sets). -/
structure Tag where
  Key : Option String
  Value : Option String
  PropagateAtLaunch : Option Bool
deriving DecidableEq, Repr

/-- The `autoscaling.TagDescription` response shape (fields the manager reads). -/
structure TagDescription where
  Key : Option String
  Value : Option String
  PropagateAtLaunch : Option Bool
deriving DecidableEq, Repr

/-- The `autoscaling.Instance` response shape. -/
structure Instance where
  InstanceId : Option String
  HealthStatus : Option String
  LifecycleState : Option String
deriving DecidableEq, Repr

/-- The `autoscaling.Group` response shape. -/
structure Group where
  AutoScalingGroupName : Option String
  DesiredCapacity : Option Int
  Instances : List Instance
  Tags : List TagDescription
deriving DecidableEq, Repr

/-- The `elbv2.TargetDescription` shape. -/
structure TargetDescription where
  Id : Option String
deriving DecidableEq, Repr

/-- The `elbv2.TargetHealth` shape. -/
structure TargetHealth where
  State : Option String
deriving DecidableEq, Repr

/-- The `elbv2.TargetHealthDescription` shape. -/
structure TargetHealthDescription where
  Target : Option TargetDescription
  TargetHealth : Option TargetHealth
deriving DecidableEq, Repr

/-- The `autoscaling.CreateLaunchConfigurationInput` request shape. -/
structure CreateLaunchConfigurationInput where
  LaunchConfigurationName : Option String
  IamInstanceProfile : Option String
  ImageId : Option String
  InstanceType : Option String
  KeyName : Option String
  SecurityGroups : List (Option String)
  UserData : Option String
deriving DecidableEq, Repr

/-- The `autoscaling.CreateAutoScalingGroupInput` request shape. -/
structure CreateAutoScalingGroupInput where
  AutoScalingGroupName : Option String
  DesiredCapacity : Option Int
  HealthCheckGracePeriod : Option Int
  HealthCheckType : Option String
  LaunchConfigurationName : Option String
  MaxSize : Option Int
  MinSize : Option Int
  Tags : List Tag
  TargetGroupARNs : List (Option String)
  VPCZoneIdentifier : Option String
deriving DecidableEq, Repr

/-- The `autoscaling.DeleteAutoScalingGroupInput` request shape. -/
structure DeleteAutoScalingGroupInput where
  AutoScalingGroupName : Option String
  ForceDelete : Option Bool
deriving DecidableEq, Repr

/-- A Go `error` value: either an error handed back by the provider or the
manager's own `AutoScalingGroupNotFoundError`. -/
inductive Error where
  | provider (code : String)
  | groupNotFound (message : String)
deriving DecidableEq, Repr

/-- How a manager function ends: it returns a value with a nil error, returns
an error, or panics on a nil pointer dereference. -/
inductive Result (α : Type) where
  | ok (value : α)
  | error (err : Error)
  | panic
deriving DecidableEq, Repr

/-- A call issued to the provider (or to the clock). -/
inductive Call where
  | CreateLaunchConfiguration (input : CreateLaunchConfigurationInput)
  | CreateAutoScalingGroup (input : CreateAutoScalingGroupInput)
  | DescribeAutoScalingGroups (names : List String)
  | DescribeAutoScalingGroupsPages
  | DeleteAutoScalingGroup (input : DeleteAutoScalingGroupInput)
  | DescribeTargetHealth (targetGroupArn : String)
  | Sleep (seconds : Nat)
deriving DecidableEq, Repr

/-- One entry of the trace: the call and the error it returned (`none` for a
nil error). -/
structure Event where
  call : Call
  err : Option Error
deriving DecidableEq, Repr

/-- The two injected clients (`autoscalingiface.AutoScalingAPI` and
`elbv2iface.ELBV2API`) as transition functions over a provider state `σ`.
`DescribeAutoScalingGroupsPages` yields the pages the SDK hands to a visitor
that answers `true` on every page, and the error that ended the enumeration,
if any. -/
structure Provider (σ : Type) where
  CreateLaunchConfiguration : σ → CreateLaunchConfigurationInput → Option Error × σ
  CreateAutoScalingGroup : σ → CreateAutoScalingGroupInput → Option Error × σ
  DescribeAutoScalingGroups : σ → List String → Except Error (List Group) × σ
  DescribeAutoScalingGroupsPages : σ → (List (List Group) × Option Error) × σ
  DeleteAutoScalingGroup : σ → DeleteAutoScalingGroupInput → Option Error × σ
  DescribeTargetHealth : σ → String → Except Error (List TargetHealthDescription) × σ

/-- Provider state together with the trace of calls issued so far (oldest
first). -/
structure World (σ : Type) where
  state : σ
  trace : List Event

/-- The error of an `Except` response, as recorded in the trace. -/
def errOf {α : Type} : Except Error α → Option Error
  | .ok _ => none
  | .error e => some e

/-! ## pkg/deployments/v1alpha1/manager.go -/

/-- The constant `risrStackName`. -/
def risrStackName : String := "v1alpha1.risr.stack"

/-- The `getInstanceIDsValues` helper: the ids of the instances, in order. The
dereference `*instance.InstanceId` panics on an absent id. -/
def getInstanceIDsValues : List Instance → Result (List String)
  | [] => .ok []
  | inst :: rest =>
    match inst.InstanceId with
    | none => .panic
    | some id =>
      match getInstanceIDsValues rest with
      | .ok ids => .ok (id :: ids)
      | .error e => .error e
      | .panic => .panic

/-- The loop and tail of `getASGHealth` (lines 221-235): `numberOfInstances`
is the counter, `desired` is `asg.DesiredCapacity`. -/
def getASGHealthLoop (desired : Option Int) : List Instance → Int → Result Bool
  | [], numberOfInstances =>
    match desired with
    | none => .panic
    | some d => if numberOfInstances < d then .ok false else .ok true
  | inst :: rest, numberOfInstances =>
    match inst.HealthStatus with
    | none => .panic
    | some hs =>
      if hs ≠ "Healthy" then .ok false
      else
        match inst.LifecycleState with
        | none => .panic
        | some ls =>
          if ls ≠ "InService" then .ok false
          else getASGHealthLoop desired rest (numberOfInstances + 1)

/-- The function `getASGHealth` (instance-status strategy). -/
def getASGHealth {σ : Type} (p : Provider σ) (asgName : String) (w : World σ) :
    Result Bool × World σ :=
  let r := p.DescribeAutoScalingGroups w.state [asgName]
  let w1 : World σ := ⟨r.2, w.trace ++ [⟨.DescribeAutoScalingGroups [asgName], errOf r.1⟩]⟩
  match r.1 with
  | .error e => (.error e, w1)
  | .ok [] => (.error (.groupNotFound ("AutoScaling group " ++ asgName ++ " not found")), w1)
  | .ok (asg :: _) => (getASGHealthLoop asg.DesiredCapacity asg.Instances 0, w1)

/-- The loop and tail of `getTargetsHealth` (lines 175-198). -/
def getTargetsHealthLoop (asg : Group) : List TargetHealthDescription → Int → Result Bool
  | [], numberOfInstances =>
    match asg.DesiredCapacity with
    | none => .panic
    | some d => if numberOfInstances < d then .ok false else .ok true
  | thDescription :: rest, numberOfInstances =>
    match thDescription.Target with
    | none => .panic
    | some target =>
      match target.Id with
      | none => getTargetsHealthLoop asg rest numberOfInstances
      | some id =>
        match getInstanceIDsValues asg.Instances with
        | .panic => .panic
        | .error e => .error e
        | .ok ids =>
          if Contains id ids then
            match thDescription.TargetHealth with
            | none => getTargetsHealthLoop asg rest (numberOfInstances + 1)
            | some th =>
              match th.State with
              | none => .panic
              | some state =>
                if state ≠ "healthy" then .ok false
                else getTargetsHealthLoop asg rest (numberOfInstances + 1)
          else getTargetsHealthLoop asg rest numberOfInstances

/-- The function `getTargetsHealth` (target-group strategy). -/
def getTargetsHealth {σ : Type} (p : Provider σ) (asgName : String) (targetGroupARN : String)
    (w : World σ) : Result Bool × World σ :=
  let r := p.DescribeAutoScalingGroups w.state [asgName]
  let w1 : World σ := ⟨r.2, w.trace ++ [⟨.DescribeAutoScalingGroups [asgName], errOf r.1⟩]⟩
  match r.1 with
  | .error e => (.error e, w1)
  | .ok [] => (.error (.groupNotFound ("AutoScaling group " ++ asgName ++ " not found")), w1)
  | .ok (asg :: _) =>
    let t := p.DescribeTargetHealth w1.state targetGroupARN
    let w2 : World σ := ⟨t.2, w1.trace ++ [⟨.DescribeTargetHealth targetGroupARN, errOf t.1⟩]⟩
    match t.1 with
    | .error e => (.error e, w2)
    | .ok targetsHealth => (getTargetsHealthLoop asg targetsHealth 0, w2)

/-- The inner loop of the visitor of `dropOldASGs` (lines 252-259) over the
tags of one group. `forDeletion` holds the names behind the appended
pointers: a pointer is appended only after `*asg.AutoScalingGroupName` was
read, so it is never nil. -/
def visitTags (stackName newASG : String) (asg : Group) :
    List TagDescription → List String → Result (List String)
  | [], forDeletion => .ok forDeletion
  | tag :: rest, forDeletion =>
    match tag.Key with
    | none => .panic
    | some key =>
      if key = risrStackName then
        match tag.Value with
        | none => .panic
        | some value =>
          if value = stackName then
            match asg.AutoScalingGroupName with
            | none => .panic
            | some name =>
              if name ≠ newASG then
                visitTags stackName newASG asg rest (forDeletion ++ [name])
              else visitTags stackName newASG asg rest forDeletion
          else visitTags stackName newASG asg rest forDeletion
      else visitTags stackName newASG asg rest forDeletion

/-- The loop `for _, asg := range page.AutoScalingGroups` of the visitor. -/
def visitGroups (stackName newASG : String) : List Group → List String → Result (List String)
  | [], forDeletion => .ok forDeletion
  | asg :: rest, forDeletion =>
    match visitTags stackName newASG asg asg.Tags forDeletion with
    | .ok forDeletion1 => visitGroups stackName newASG rest forDeletion1
    | .error e => .error e
    | .panic => .panic

/-- The visitor of `dropOldASGs` run over the delivered pages in order; it
answers `true` on every page, so every delivered page is visited. -/
def visitPages (stackName newASG : String) :
    List (List Group) → List String → Result (List String)
  | [], forDeletion => .ok forDeletion
  | page :: rest, forDeletion =>
    match visitGroups stackName newASG page forDeletion with
    | .ok forDeletion1 => visitPages stackName newASG rest forDeletion1
    | .error e => .error e
    | .panic => .panic

/-- The deletion loop of `dropOldASGs` (lines 271-281). -/
def deleteLoop {σ : Type} (p : Provider σ) : List String → World σ → Result Unit × World σ
  | [], w => (.ok (), w)
  | del :: rest, w =>
    let r := p.DeleteAutoScalingGroup w.state ⟨some del, some true⟩
    let w1 : World σ :=
      ⟨r.2, w.trace ++ [⟨.DeleteAutoScalingGroup ⟨some del, some true⟩, r.1⟩]⟩
    match r.1 with
    | some e => (.error e, w1)
    | none => deleteLoop p rest w1

/-- The function `dropOldASGs`. The visitor runs while the pages are being
delivered, hence before the error of the enumeration is examined. -/
def dropOldASGs {σ : Type} (p : Provider σ) (stackName newASG : String) (w : World σ) :
    Result Unit × World σ :=
  let r := p.DescribeAutoScalingGroupsPages w.state
  let w1 : World σ := ⟨r.2, w.trace ++ [⟨.DescribeAutoScalingGroupsPages, r.1.2⟩]⟩
  match visitPages stackName newASG r.1.1 [] with
  | .panic => (.panic, w1)
  | .error e => (.error e, w1)
  | .ok forDeletion =>
    match r.1.2 with
    | some e => (.error e, w1)
    | none => deleteLoop p forDeletion w1

/-- The function `generateCreateLCInput`; `uuid` is `uuid.New().String()`. -/
def generateCreateLCInput (stack : Stack) (uuid : String) : CreateLaunchConfigurationInput :=
  { LaunchConfigurationName := some (stack.Name ++ "-" ++ uuid.take 6)
    IamInstanceProfile := stack.IamInstanceProfile
    ImageId := some stack.AMI
    InstanceType := some stack.InstanceType
    KeyName := stack.KeyName
    SecurityGroups := stack.SecurityGroupIDs
    UserData := none }

/-- The function `generateASGTags`: one tag per entry of `stack.Tags`, then the
control tag. -/
def generateASGTags (stack : Stack) : List Tag :=
  stack.Tags.map (fun kv => ⟨some kv.1, some kv.2, some true⟩)
    ++ [⟨some risrStackName, some stack.Name, some true⟩]

/-- The function `generateCreateASGroupInput`; `uuid` is `uuid.New().String()`. -/
def generateCreateASGroupInput (stack : Stack) (lauchConfigurationName : String)
    (uuid : String) : CreateAutoScalingGroupInput :=
  let healthCheckGracePeriod : Option Int :=
    match stack.HealthCheckGracePeriod with
    | some g => some g
    | none => some 60
  { AutoScalingGroupName := some (stack.Name ++ "-" ++ uuid.take 6)
    DesiredCapacity := some stack.Replicas
    HealthCheckGracePeriod := healthCheckGracePeriod
    HealthCheckType := some "ELB"
    LaunchConfigurationName := some lauchConfigurationName
    MaxSize := some stack.Replicas
    MinSize := some stack.Replicas
    Tags := generateASGTags stack
    TargetGroupARNs := [stack.TargetGroupARN]
    VPCZoneIdentifier := some (String.intercalate "," stack.SubnetIDs) }

/-- The function `isASGHealthy`: the target-group strategy when the stack has a
target group ARN, the instance-status strategy otherwise. -/
def isASGHealthy {σ : Type} (p : Provider σ) (stack : Stack) (asgName : String)
    (w : World σ) : Result Bool × World σ :=
  match stack.TargetGroupARN with
  | some targetGroupARN =>
    let r := getTargetsHealth p asgName targetGroupARN w
    match r.1 with
    | .error e => (.error e, r.2)
    | .panic => (.panic, r.2)
    | .ok healthy => (.ok healthy, r.2)
  | none =>
    let r := getASGHealth p asgName w
    match r.1 with
    | .error e => (.error e, r.2)
    | .panic => (.panic, r.2)
    | .ok healthy => (.ok healthy, r.2)

/-- The poll loop of `DeployStack` (lines 87-111). The Go loop has no bound;
`fuel` bounds the number of evaluations, and `none` means that the loop is
still polling after `fuel` evaluations. The provider state advances only at
calls, so whatever happens during a sleep is seen at the next call. Logging
and the `attempts` counter, which only feeds the log, are left out. -/
def pollLoop {σ : Type} (p : Provider σ) (stack : Stack) (asgName : String) :
    Nat → World σ → Option (Result Unit × World σ)
  | 0, _ => none
  | fuel + 1, w =>
    let r := isASGHealthy p stack asgName w
    match r.1 with
    | .error e => some (.error e, r.2)
    | .panic => some (.panic, r.2)
    | .ok true =>
      let d := dropOldASGs p stack.Name asgName r.2
      match d.1 with
      | .error e => some (.error e, d.2)
      | .panic => some (.panic, d.2)
      | .ok () => some (.ok (), d.2)
    | .ok false =>
      pollLoop p stack asgName fuel ⟨r.2.state, r.2.trace ++ [⟨.Sleep 10, none⟩]⟩

/-- The function `DeployStack`; `uuidLC` and `uuidASG` are the two values of
`uuid.New().String()` drawn by the builders, `fuel` bounds the poll loop. -/
def DeployStack {σ : Type} (p : Provider σ) (stack : Stack) (uuidLC uuidASG : String)
    (fuel : Nat) (w : World σ) : Option (Result Unit × World σ) :=
  let createLCInput := generateCreateLCInput stack uuidLC
  match createLCInput.LaunchConfigurationName with
  | none => some (.panic, w)
  | some launchConfigurationName =>
    let r1 := p.CreateLaunchConfiguration w.state createLCInput
    let w1 : World σ :=
      ⟨r1.2, w.trace ++ [⟨.CreateLaunchConfiguration createLCInput, r1.1⟩]⟩
    match r1.1 with
    | some e => some (.error e, w1)
    | none =>
      let createASGInput := generateCreateASGroupInput stack launchConfigurationName uuidASG
      match createASGInput.AutoScalingGroupName with
      | none => some (.panic, w1)
      | some asgName =>
        let r2 := p.CreateAutoScalingGroup w1.state createASGInput
        let w2 : World σ :=
          ⟨r2.2, w1.trace ++ [⟨.CreateAutoScalingGroup createASGInput, r2.1⟩]⟩
        match r2.1 with
        | some e => some (.error e, w2)
        | none => pollLoop p stack asgName fuel w2

/-! ## Vocabulary of the statements -/

/-- An instance is healthy for the instance-status strategy. -/
def Instance.healthy (i : Instance) : Prop :=
  i.HealthStatus = some "Healthy" ∧ i.LifecycleState = some "InService"

/-- The target id of a description, when it has one. -/
def TargetHealthDescription.targetId (t : TargetHealthDescription) : Option String :=
  match t.Target with
  | some target => target.Id
  | none => none

/-- The health state of a description, when it has one. -/
def TargetHealthDescription.state (t : TargetHealthDescription) : Option String :=
  match t.TargetHealth with
  | some th => th.State
  | none => none

/-- The description's target id is among the instance ids of the group. -/
def isMember (asg : Group) (t : TargetHealthDescription) : Bool :=
  match t.targetId with
  | some id => decide (∃ i ∈ asg.Instances, i.InstanceId = some id)
  | none => false

/-- The group carries the control tag for `stackName`. -/
def hasControlTag (stackName : String) (g : Group) : Prop :=
  ∃ t ∈ g.Tags, t.Key = some risrStackName ∧ t.Value = some stackName

/-- A group record whose name and tag keys and values are all present. -/
def Group.tagged (g : Group) : Prop :=
  g.AutoScalingGroupName.isSome = true ∧
    ∀ t ∈ g.Tags, t.Key.isSome = true ∧ t.Value.isSome = true

/-- The tag equals the control tag for `stackName`. -/
def isControlTag (stackName : String) (t : TagDescription) : Bool :=
  decide (t.Key = some risrStackName ∧ t.Value = some stackName)

/-- The names one group with the given tags adds to the deletion list: its
name once per tag equal to the control tag, unless the name is `newASG`. -/
def entriesOf (stackName newASG : String) (name : Option String)
    (tags : List TagDescription) : List String :=
  match name with
  | some n =>
    if n ≠ newASG then List.replicate (tags.countP (isControlTag stackName)) n else []
  | none => []

/-- The names a group adds to the deletion list. -/
def entries (stackName newASG : String) (g : Group) : List String :=
  entriesOf stackName newASG g.AutoScalingGroupName g.Tags

/-- The group is an old generation of `stackName`: it carries the control tag
and its name differs from `newASG`. -/
def isOld (stackName newASG : String) (g : Group) : Bool :=
  g.Tags.any (isControlTag stackName) && decide (g.AutoScalingGroupName ≠ some newASG)

/-- The trace entry of a forced delete of `name` that returned `err`. -/
def deleteEvent (name : String) (err : Option Error) : Event :=
  ⟨.DeleteAutoScalingGroup ⟨some name, some true⟩, err⟩

instance (g : Group) : Decidable g.tagged := by
  unfold Group.tagged
  infer_instance

instance (stackName : String) (g : Group) : Decidable (hasControlTag stackName g) := by
  unfold hasControlTag
  infer_instance

instance (i : Instance) : Decidable i.healthy := by
  unfold Instance.healthy
  infer_instance

/-- The inputs of the `DeleteAutoScalingGroup` calls of a trace, in order. -/
def deleteCalls : List Event → List DeleteAutoScalingGroupInput
  | [] => []
  | ⟨.DeleteAutoScalingGroup input, _⟩ :: rest => input :: deleteCalls rest
  | _ :: rest => deleteCalls rest

/-- The tag list a group shows when it was created with the given tags. -/
def describeTags (tags : List Tag) : List TagDescription :=
  tags.map (fun t => ⟨t.Key, t.Value, t.PropagateAtLaunch⟩)

/-- The name `generateCreateLCInput` gives the launch configuration. -/
def lcNameOf (stack : Stack) (uuidLC : String) : String :=
  stack.Name ++ "-" ++ uuidLC.take 6

/-- The name `generateCreateASGroupInput` gives the auto-scaling group. -/
def asgNameOf (stack : Stack) (uuidASG : String) : String :=
  stack.Name ++ "-" ++ uuidASG.take 6

/-- The trace entry of the `CreateLaunchConfiguration` call of a deployment. -/
def createLCEvent (stack : Stack) (uuidLC : String) (err : Option Error) : Event :=
  ⟨.CreateLaunchConfiguration (generateCreateLCInput stack uuidLC), err⟩

/-- The trace entry of the `CreateAutoScalingGroup` call of a deployment. -/
def createASGEvent (stack : Stack) (uuidLC uuidASG : String) (err : Option Error) : Event :=
  ⟨.CreateAutoScalingGroup
    (generateCreateASGroupInput stack (lcNameOf stack uuidLC) uuidASG), err⟩

/-- The world in which the poll loop of a deployment starts: both create
calls have been issued. -/
def afterCreates {σ : Type} (p : Provider σ) (stack : Stack) (uuidLC uuidASG : String)
    (w : World σ) : World σ :=
  let r1 := p.CreateLaunchConfiguration w.state (generateCreateLCInput stack uuidLC)
  let r2 := p.CreateAutoScalingGroup r1.2
    (generateCreateASGroupInput stack (lcNameOf stack uuidLC) uuidASG)
  ⟨r2.2, w.trace ++ [createLCEvent stack uuidLC r1.1, createASGEvent stack uuidLC uuidASG r2.1]⟩

/-- The world after `k` rounds of the poll loop: an evaluation followed by a
sleep of 10 seconds, `k` times. -/
def pollWorld {σ : Type} (p : Provider σ) (stack : Stack) (asgName : String) :
    Nat → World σ → World σ
  | 0, w => w
  | k + 1, w =>
    pollWorld p stack asgName k
      ⟨(isASGHealthy p stack asgName w).2.state,
        (isASGHealthy p stack asgName w).2.trace ++ [⟨.Sleep 10, none⟩]⟩

/-- The event is a health query: a describe of groups by name or a
target-health lookup. -/
def Event.isHealthQuery (ev : Event) : Bool :=
  match ev.call with
  | .DescribeAutoScalingGroups _ => true
  | .DescribeTargetHealth _ => true
  | _ => false

/-- The event is the describe call that opens an evaluation of `asgName`. -/
def Event.isEvaluation (asgName : String) (ev : Event) : Bool :=
  match ev.call with
  | .DescribeAutoScalingGroups names => decide (names = [asgName])
  | _ => false

/-- The event is a sleep of 10 seconds. -/
def Event.isSleep (ev : Event) : Bool :=
  decide (ev = ⟨.Sleep 10, none⟩)

/-- The event is a `DeleteAutoScalingGroup` call. -/
def Event.isDelete (ev : Event) : Bool :=
  match ev.call with
  | .DeleteAutoScalingGroup _ => true
  | _ => false

/-- The event is a target-health lookup. -/
def Event.isTargetHealth (ev : Event) : Bool :=
  match ev.call with
  | .DescribeTargetHealth _ => true
  | _ => false

/-- The `AutoScalingGroupNotFoundError` raised for `asgName`. -/
def notFound (asgName : String) : Error :=
  .groupNotFound ("AutoScaling group " ++ asgName ++ " not found")

/-! ## Concrete provider data -/

/-- A stateless provider answering from fixed tables: `groups` for every
describe-by-name, `pages` for the paged enumeration, `targets` for every
target-health lookup; a delete fails exactly on the names in `failing`. -/
def tableProvider (groups : Except Error (List Group))
    (pages : List (List Group) × Option Error)
    (targets : Except Error (List TargetHealthDescription))
    (failing : List String) : Provider Unit where
  CreateLaunchConfiguration _ _ := (none, ())
  CreateAutoScalingGroup _ _ := (none, ())
  DescribeAutoScalingGroups _ _ := (groups, ())
  DescribeAutoScalingGroupsPages _ := (pages, ())
  DeleteAutoScalingGroup _ input :=
    (if input.AutoScalingGroupName ∈ failing.map some then
        some (.provider "ResourceInUse") else none, ())
  DescribeTargetHealth _ _ := (targets, ())

/-- The world before any call. -/
def World.start : World Unit := ⟨(), []⟩

/-- A group `web-1` of two healthy in-service instances, desired capacity 2. -/
def webGroup : Group :=
  { AutoScalingGroupName := some "web-1"
    DesiredCapacity := some 2
    Instances := [⟨some "i-1", some "Healthy", some "InService"⟩,
      ⟨some "i-2", some "Healthy", some "InService"⟩]
    Tags := [⟨some risrStackName, some "web", some true⟩] }

/-- Target health: both instances of `webGroup` healthy, and a foreign target
that is draining. -/
def webTargets : List TargetHealthDescription :=
  [⟨some ⟨some "i-1"⟩, some ⟨some "healthy"⟩⟩,
   ⟨some ⟨some "i-9"⟩, some ⟨some "draining"⟩⟩,
   ⟨some ⟨some "i-2"⟩, some ⟨some "healthy"⟩⟩]

/-- Target health in which the record of `i-2` carries no `TargetHealth`. -/
def webTargetsMissing : List TargetHealthDescription :=
  [⟨some ⟨some "i-1"⟩, some ⟨some "healthy"⟩⟩,
   ⟨some ⟨some "i-2"⟩, none⟩]

/-- Target health in which the record of `i-2` carries a `TargetHealth` without
a `State`. -/
def webTargetsStateless : List TargetHealthDescription :=
  [⟨some ⟨some "i-1"⟩, some ⟨some "healthy"⟩⟩,
   ⟨some ⟨some "i-2"⟩, some ⟨none⟩⟩]

/-- An old generation of stack `web`. -/
def oldGroup : Group :=
  ⟨some "web-old", some 2, [], [⟨some "team", some "x", some true⟩,
    ⟨some risrStackName, some "web", some true⟩]⟩

/-- An older generation of stack `web`. -/
def olderGroup : Group :=
  ⟨some "web-older", some 2, [], [⟨some risrStackName, some "web", some true⟩]⟩

/-- The freshly created generation of stack `web`. -/
def newGroup : Group :=
  ⟨some "web-new", some 2, [], [⟨some risrStackName, some "web", some true⟩]⟩

/-- A generation of another stack, `api`. -/
def apiGroup : Group :=
  ⟨some "api-1", some 1, [], [⟨some risrStackName, some "api", some true⟩]⟩

/-- A group that carries the control tag of stack `web` twice. -/
def twiceTagged : Group :=
  ⟨some "web-old", some 2, [], [⟨some risrStackName, some "web", some true⟩,
    ⟨some risrStackName, some "web", some true⟩]⟩

/-- An account enumerated in two pages. -/
def accountPages : List (List Group) := [[oldGroup, apiGroup], [newGroup, olderGroup]]

/-- An account in two pages whose first group carries the control tag of stack
`web` twice. -/
def twicePages : List (List Group) := [[twiceTagged, apiGroup], [newGroup, olderGroup]]

/-- A stack `web` with user data and without a target group. -/
def webStack : Stack :=
  { Name := "web", AMI := "ami-1", SubnetIDs := ["s-a", "s-b"],
    SecurityGroupIDs := [some "sg-1"], InstanceType := "t3.small", KeyName := some "ops",
    UserData := some "#!/bin/sh", Replicas := 2, IamInstanceProfile := some "web-profile",
    TargetGroupARN := none, HealthCheckGracePeriod := none, Tags := [("team", "x")] }

/-- A stack `api` whose user tags use the control-tag key with the value `web`. -/
def apiStack : Stack :=
  { Name := "api", AMI := "ami-2", SubnetIDs := ["s-a"], SecurityGroupIDs := [],
    InstanceType := "t3.small", KeyName := none, UserData := none, Replicas := 1,
    IamInstanceProfile := none, TargetGroupARN := some "arn:tg/api",
    HealthCheckGracePeriod := some 0, Tags := [(risrStackName, "web")] }

/-- The group created for `apiStack`, as the provider describes it. -/
def apiStackGroup : Group :=
  ⟨some "api-0f8fad", some 1, [], describeTags (generateASGTags apiStack)⟩

/-- The group created for `webStack`, as the provider describes it. -/
def webStackGroup : Group :=
  ⟨some "web-7c9e66", some 2, [], describeTags (generateASGTags webStack)⟩

/-- The group `web-1` while its second instance is still pending. -/
def pendingGroup : Group :=
  { AutoScalingGroupName := some "web-1"
    DesiredCapacity := some 2
    Instances := [⟨some "i-1", some "Healthy", some "InService"⟩,
      ⟨some "i-2", some "Healthy", some "Pending"⟩]
    Tags := [⟨some risrStackName, some "web", some true⟩] }

/-- A provider whose state counts the describe-by-name calls answered so far:
the described group is `pendingGroup` for the first `healthyAfter` describes
and `webGroup` from then on. The create calls return `lcErr` and `asgErr`, the
enumeration returns `pages`, every delete succeeds. -/
def warmingProvider (lcErr asgErr : Option Error) (healthyAfter : Nat)
    (pages : List (List Group) × Option Error) : Provider Nat where
  CreateLaunchConfiguration s _ := (lcErr, s)
  CreateAutoScalingGroup s _ := (asgErr, s)
  DescribeAutoScalingGroups s _ :=
    (.ok [if s < healthyAfter then pendingGroup else webGroup], s + 1)
  DescribeAutoScalingGroupsPages s := (pages, s)
  DeleteAutoScalingGroup s _ := (none, s)
  DescribeTargetHealth s _ := (.ok webTargets, s)

/-- An account as provider state: the state is the list of groups of the
account, the enumeration delivers it split into pages by `paginate`, a forced
delete removes the groups with the given name and succeeds, a create of a
group adds it with the requested tags and no instances. -/
def accountProvider (paginate : List Group → List (List Group)) : Provider (List Group) where
  CreateLaunchConfiguration s _ := (none, s)
  CreateAutoScalingGroup s input :=
    (none, s ++ [⟨input.AutoScalingGroupName, input.DesiredCapacity, [],
      describeTags input.Tags⟩])
  DescribeAutoScalingGroups s names :=
    (.ok (s.filter (fun g => decide (g.AutoScalingGroupName ∈ names.map some))), s)
  DescribeAutoScalingGroupsPages s := ((paginate s, none), s)
  DeleteAutoScalingGroup s input :=
    (none, s.filter (fun g => decide (g.AutoScalingGroupName ≠ input.AutoScalingGroupName)))
  DescribeTargetHealth s _ := (.ok [], s)

/-- One group per page. -/
def singlePages (account : List Group) : List (List Group) :=
  account.map (fun g => [g])

/-- Target health in which `i-1` is registered twice and `i-2` is not
registered. -/
def webTargetsTwice : List TargetHealthDescription :=
  [⟨some ⟨some "i-1"⟩, some ⟨some "healthy"⟩⟩,
   ⟨some ⟨some "i-1"⟩, some ⟨some "healthy"⟩⟩]

/-- A provider for a deployment of `webStack`: both creates succeed, the new
group is healthy from the third evaluation on, and the account holds one old
generation and the new one. -/
def warmProvider : Provider Nat :=
  warmingProvider none none 2 ([[oldGroup, webStackGroup]], none)

/-- The calls of the deployment of `webStack` against `warmProvider`. -/
def warmTrace : List Event :=
  [createLCEvent webStack "0f8fad5b-d9cb" none,
    createASGEvent webStack "0f8fad5b-d9cb" "7c9e6679-7425" none,
    ⟨.DescribeAutoScalingGroups ["web-7c9e66"], none⟩, ⟨.Sleep 10, none⟩,
    ⟨.DescribeAutoScalingGroups ["web-7c9e66"], none⟩, ⟨.Sleep 10, none⟩,
    ⟨.DescribeAutoScalingGroups ["web-7c9e66"], none⟩,
    ⟨.DescribeAutoScalingGroupsPages, none⟩, deleteEvent "web-old" none]

/-! ## Instance-status strategy -/

theorem getASGHealthLoop_spec (d : Int) (l : List Instance) (n : Int)
    (hfields : ∀ i ∈ l, i.HealthStatus.isSome = true ∧ i.LifecycleState.isSome = true) :
    ∃ b, getASGHealthLoop (some d) l n = .ok b ∧
      (b = true ↔ (∀ i ∈ l, i.healthy) ∧ d ≤ n + (l.length : Int)) := by
  induction l generalizing n with
  | nil =>
    by_cases h : n < d
    · exact ⟨false, by simp [getASGHealthLoop, h], by simp; omega⟩
    · exact ⟨true, by simp [getASGHealthLoop, h], by simp; omega⟩
  | cons inst rest ih =>
    have hrest : ∀ i ∈ rest, i.HealthStatus.isSome = true ∧ i.LifecycleState.isSome = true :=
      fun i hi => hfields i (List.mem_cons_of_mem _ hi)
    obtain ⟨hhs, hls⟩ := hfields inst (List.mem_cons_self _ _)
    obtain ⟨hs, hhs⟩ := Option.isSome_iff_exists.mp hhs
    obtain ⟨ls, hls⟩ := Option.isSome_iff_exists.mp hls
    by_cases h1 : hs = "Healthy"
    · by_cases h2 : ls = "InService"
      · obtain ⟨b, hb, hiff⟩ := ih (n + 1) hrest
        refine ⟨b, by simp [getASGHealthLoop, hhs, hls, h1, h2, hb], ?_⟩
        rw [hiff]
        simp only [List.forall_mem_cons, List.length_cons, Instance.healthy, hhs, hls, h1, h2,
          true_and, and_self, Nat.cast_add, Nat.cast_one]
        constructor
        · rintro ⟨ha, hb⟩; exact ⟨ha, by omega⟩
        · rintro ⟨ha, hb⟩; exact ⟨ha, by omega⟩
      · refine ⟨false, by simp [getASGHealthLoop, hhs, hls, h1, h2], ?_⟩
        simp [Instance.healthy, hls, h2]
    · refine ⟨false, by simp [getASGHealthLoop, hhs, h1], ?_⟩
      simp [Instance.healthy, hhs, h1]

/-- C1: when the describe call succeeds and its first record `asg` has its
desired capacity and the health status and lifecycle state of every instance
present, `getASGHealth` returns a boolean, and it is `true` exactly when each
of the instances is `Healthy` and `InService` and the number of instances is
at least the desired capacity. -/
theorem getASGHealth_healthy_iff {σ : Type} (p : Provider σ) (w : World σ) (asgName : String)
    (asg : Group) (others : List Group) (s1 : σ) (d : Int)
    (hdescribe : p.DescribeAutoScalingGroups w.state [asgName] = (.ok (asg :: others), s1))
    (hcap : asg.DesiredCapacity = some d)
    (hfields : ∀ i ∈ asg.Instances,
      i.HealthStatus.isSome = true ∧ i.LifecycleState.isSome = true) :
    ∃ b, (getASGHealth p asgName w).1 = .ok b ∧
      (b = true ↔
        (∀ i ∈ asg.Instances,
          i.HealthStatus = some "Healthy" ∧ i.LifecycleState = some "InService") ∧
        d ≤ (asg.Instances.length : Int)) := by
  obtain ⟨b, hb, hiff⟩ := getASGHealthLoop_spec d asg.Instances 0 hfields
  refine ⟨b, ?_, ?_⟩
  · simp [getASGHealth, hdescribe, hcap, hb]
  · simpa [Instance.healthy] using hiff

/-- C1 at a concrete run: `webGroup` is reported healthy. -/
theorem getASGHealth_healthy_iff_witness :
    ∃ b, (getASGHealth (tableProvider (.ok [webGroup]) ([], none) (.ok []) []) "web-1"
        World.start).1 = .ok b ∧
      (b = true ↔
        (∀ i ∈ webGroup.Instances,
          i.HealthStatus = some "Healthy" ∧ i.LifecycleState = some "InService") ∧
        (2 : Int) ≤ (webGroup.Instances.length : Int)) :=
  getASGHealth_healthy_iff (tableProvider (.ok [webGroup]) ([], none) (.ok []) []) World.start
    "web-1" webGroup [] () 2 rfl rfl (by decide)

/-! ## Target-group strategy -/

theorem Contains_iff (needle : String) (haystack : List String) :
    Contains needle haystack = true ↔ needle ∈ haystack := by
  induction haystack with
  | nil => simp [Contains]
  | cons element rest ih =>
    by_cases h : needle = element
    · simp [Contains, h]
    · simp [Contains, h, ih]

theorem getInstanceIDsValues_ok (l : List Instance)
    (hids : ∀ i ∈ l, i.InstanceId.isSome = true) :
    ∃ ids, getInstanceIDsValues l = .ok ids ∧
      ∀ id, id ∈ ids ↔ ∃ i ∈ l, i.InstanceId = some id := by
  induction l with
  | nil => exact ⟨[], rfl, by simp⟩
  | cons inst rest ih =>
    obtain ⟨ids, hok, hmem⟩ := ih (fun i hi => hids i (List.mem_cons_of_mem _ hi))
    obtain ⟨x, hx⟩ := Option.isSome_iff_exists.mp (hids inst (List.mem_cons_self _ _))
    refine ⟨x :: ids, by simp [getInstanceIDsValues, hx, hok], ?_⟩
    intro id
    rw [List.mem_cons, hmem]
    constructor
    · rintro (h | ⟨i, hi, hi2⟩)
      · exact ⟨inst, List.mem_cons_self _ _, by rw [hx, h]⟩
      · exact ⟨i, List.mem_cons_of_mem _ hi, hi2⟩
    · rintro ⟨i, hi, hi2⟩
      rcases List.mem_cons.mp hi with h | h
      · subst h
        rw [hx] at hi2
        exact Or.inl (Option.some.inj hi2).symm
      · exact Or.inr ⟨i, h, hi2⟩

theorem getTargetsHealthLoop_skip (asg : Group) (t : TargetHealthDescription)
    (rest : List TargetHealthDescription) (n : Int)
    (hids : ∀ i ∈ asg.Instances, i.InstanceId.isSome = true)
    (htarget : t.Target.isSome = true) (hmem : isMember asg t = false) :
    getTargetsHealthLoop asg (t :: rest) n = getTargetsHealthLoop asg rest n := by
  obtain ⟨ids, hok, hiff⟩ := getInstanceIDsValues_ok asg.Instances hids
  obtain ⟨target, ht⟩ := Option.isSome_iff_exists.mp htarget
  cases hid : target.Id with
  | none => simp [getTargetsHealthLoop, ht, hid]
  | some id =>
    have hnot : Contains id ids = false := by
      rw [Bool.eq_false_iff]
      intro hc
      rw [Contains_iff, hiff] at hc
      simp [isMember, TargetHealthDescription.targetId, ht, hid] at hmem
      obtain ⟨i, hi, hi2⟩ := hc
      exact hmem i hi hi2
    simp [getTargetsHealthLoop, ht, hid, hok, hnot]

theorem getTargetsHealthLoop_member (asg : Group) (t : TargetHealthDescription)
    (rest : List TargetHealthDescription) (n : Int)
    (hids : ∀ i ∈ asg.Instances, i.InstanceId.isSome = true)
    (hmem : isMember asg t = true) :
    getTargetsHealthLoop asg (t :: rest) n =
      match t.TargetHealth with
      | none => getTargetsHealthLoop asg rest (n + 1)
      | some th =>
        match th.State with
        | none => .panic
        | some state =>
          if state ≠ "healthy" then .ok false else getTargetsHealthLoop asg rest (n + 1) := by
  obtain ⟨ids, hok, hiff⟩ := getInstanceIDsValues_ok asg.Instances hids
  cases ht : t.Target with
  | none => simp [isMember, TargetHealthDescription.targetId, ht] at hmem
  | some target =>
    cases hid : target.Id with
    | none => simp [isMember, TargetHealthDescription.targetId, ht, hid] at hmem
    | some id =>
      have hc : Contains id ids = true := by
        rw [Contains_iff, hiff]
        simpa [isMember, TargetHealthDescription.targetId, ht, hid] using hmem
      simp [getTargetsHealthLoop, ht, hid, hok, hc]

theorem getTargetsHealthLoop_filter (asg : Group) (ds : List TargetHealthDescription) (n : Int)
    (hids : ∀ i ∈ asg.Instances, i.InstanceId.isSome = true)
    (htarget : ∀ t ∈ ds, t.Target.isSome = true) :
    getTargetsHealthLoop asg ds n = getTargetsHealthLoop asg (ds.filter (isMember asg)) n := by
  induction ds generalizing n with
  | nil => rfl
  | cons t rest ih =>
    have hrest : ∀ t ∈ rest, t.Target.isSome = true :=
      fun x hx => htarget x (List.mem_cons_of_mem _ hx)
    cases hmem : isMember asg t with
    | false =>
      rw [getTargetsHealthLoop_skip asg t rest n hids (htarget t (List.mem_cons_self _ _)) hmem,
        List.filter_cons_of_neg (by simp [hmem])]
      exact ih n hrest
    | true =>
      rw [List.filter_cons_of_pos hmem, getTargetsHealthLoop_member asg t rest n hids hmem,
        getTargetsHealthLoop_member asg t _ n hids hmem, ih (n + 1) hrest]

theorem getTargetsHealthLoop_spec (asg : Group) (d : Int) (ds : List TargetHealthDescription)
    (n : Int) (hcap : asg.DesiredCapacity = some d)
    (hids : ∀ i ∈ asg.Instances, i.InstanceId.isSome = true)
    (htarget : ∀ t ∈ ds, t.Target.isSome = true)
    (hstate : ∀ t ∈ ds, ∀ th, t.TargetHealth = some th → th.State.isSome = true) :
    ∃ b, getTargetsHealthLoop asg ds n = .ok b ∧
      (b = true ↔
        (∀ t ∈ ds, isMember asg t = true →
          t.TargetHealth = none ∨ t.state = some "healthy") ∧
        d ≤ n + ((ds.filter (isMember asg)).length : Int)) := by
  induction ds generalizing n with
  | nil =>
    by_cases h : n < d
    · exact ⟨false, by simp [getTargetsHealthLoop, hcap, h], by simp; omega⟩
    · exact ⟨true, by simp [getTargetsHealthLoop, hcap, h], by simp; omega⟩
  | cons t rest ih =>
    have hrest : ∀ t ∈ rest, t.Target.isSome = true :=
      fun x hx => htarget x (List.mem_cons_of_mem _ hx)
    have hrest2 : ∀ t ∈ rest, ∀ th, t.TargetHealth = some th → th.State.isSome = true :=
      fun x hx => hstate x (List.mem_cons_of_mem _ hx)
    cases hmem : isMember asg t with
    | false =>
      obtain ⟨b, hb, hiff⟩ := ih n hrest hrest2
      refine ⟨b, ?_, ?_⟩
      · rw [getTargetsHealthLoop_skip asg t rest n hids (htarget t (List.mem_cons_self _ _)) hmem]
        exact hb
      · rw [hiff, List.filter_cons_of_neg (by simp [hmem])]
        simp [hmem]
    | true =>
      rw [getTargetsHealthLoop_member asg t rest n hids hmem, List.filter_cons_of_pos hmem]
      obtain ⟨b, hb, hiff⟩ := ih (n + 1) hrest hrest2
      have harith : ∀ k : Nat, (d ≤ n + 1 + (k : Int)) ↔ (d ≤ n + ((k + 1 : Nat) : Int)) := by
        intro k; push_cast; constructor <;> intro h <;> omega
      cases hth : t.TargetHealth with
      | none =>
        refine ⟨b, hb, ?_⟩
        rw [hiff, harith]
        simp [hmem, hth]
      | some th =>
        obtain ⟨st, hst⟩ :=
          Option.isSome_iff_exists.mp (hstate t (List.mem_cons_self _ _) th hth)
        by_cases hh : st = "healthy"
        · refine ⟨b, by simp [hst, hh, hb], ?_⟩
          rw [hiff, harith]
          simp [hmem, hth, TargetHealthDescription.state, hst, hh]
        · refine ⟨false, by simp [hst, hh], ?_⟩
          simp [hmem, hth, TargetHealthDescription.state, hst, hh]

/-- C2: when the describe call yields the record `asg` (desired capacity and
the ids of its instances present) and the target-health lookup yields
descriptions that all carry a target id and a state, `getTargetsHealth` returns a boolean that
is `true` exactly when every description whose target id is an instance id of
the group has state `healthy` and those descriptions number at least the
desired capacity; and the result is the one computed from the matching
descriptions alone. -/
theorem getTargetsHealth_healthy_iff {σ : Type} (p : Provider σ) (w : World σ)
    (asgName targetGroupARN : String) (asg : Group) (others : List Group) (s1 s2 : σ)
    (ds : List TargetHealthDescription) (d : Int)
    (hdescribe : p.DescribeAutoScalingGroups w.state [asgName] = (.ok (asg :: others), s1))
    (hhealth : p.DescribeTargetHealth s1 targetGroupARN = (.ok ds, s2))
    (hcap : asg.DesiredCapacity = some d)
    (hids : ∀ i ∈ asg.Instances, i.InstanceId.isSome = true)
    (hpresent : ∀ t ∈ ds, ∃ id st,
      t.Target = some ⟨some id⟩ ∧ t.TargetHealth = some ⟨some st⟩) :
    (∃ b, (getTargetsHealth p asgName targetGroupARN w).1 = .ok b ∧
      (b = true ↔
        (∀ t ∈ ds, isMember asg t = true → t.state = some "healthy") ∧
        d ≤ ((ds.filter (isMember asg)).length : Int))) ∧
    (getTargetsHealth p asgName targetGroupARN w).1 =
      getTargetsHealthLoop asg (ds.filter (isMember asg)) 0 := by
  have hrun : (getTargetsHealth p asgName targetGroupARN w).1 = getTargetsHealthLoop asg ds 0 := by
    simp [getTargetsHealth, hdescribe, hhealth]
  have htarget : ∀ t ∈ ds, t.Target.isSome = true := by
    intro t ht
    obtain ⟨id, st, h1, _⟩ := hpresent t ht
    simp [h1]
  have hstate : ∀ t ∈ ds, ∀ th, t.TargetHealth = some th → th.State.isSome = true := by
    intro t ht th hth
    obtain ⟨id, st, _, h2⟩ := hpresent t ht
    rw [h2] at hth
    cases hth
    rfl
  obtain ⟨b, hb, hiff⟩ := getTargetsHealthLoop_spec asg d ds 0 hcap hids htarget hstate
  refine ⟨⟨b, hrun.trans hb, ?_⟩, hrun.trans (getTargetsHealthLoop_filter asg ds 0 hids htarget)⟩
  rw [hiff, zero_add]
  refine and_congr_left (fun _ => forall₂_congr (fun t ht => imp_congr_right (fun _ => ?_)))
  obtain ⟨id, st, _, h2⟩ := hpresent t ht
  simp [h2]

/-- C2 at a concrete run: `webGroup` with `webTargets`. -/
theorem getTargetsHealth_healthy_iff_witness :
    (∃ b, (getTargetsHealth (tableProvider (.ok [webGroup]) ([], none) (.ok webTargets) [])
        "web-1" "arn:tg/x" World.start).1 = .ok b ∧
      (b = true ↔
        (∀ t ∈ webTargets, isMember webGroup t = true → t.state = some "healthy") ∧
        (2 : Int) ≤ ((webTargets.filter (isMember webGroup)).length : Int))) ∧
    (getTargetsHealth (tableProvider (.ok [webGroup]) ([], none) (.ok webTargets) [])
        "web-1" "arn:tg/x" World.start).1 =
      getTargetsHealthLoop webGroup (webTargets.filter (isMember webGroup)) 0 :=
  getTargetsHealth_healthy_iff (tableProvider (.ok [webGroup]) ([], none) (.ok webTargets) [])
    World.start "web-1" "arn:tg/x" webGroup [] () () webTargets 2 rfl rfl rfl (by decide)
    (by simp [webTargets])

/-- C4 at the failing input: for `webGroup` with `webTargetsMissing`, the
description of `i-2` matches the group and has no health record, hence no
state, yet `getTargetsHealth` returns healthy and not the answer not healthy;
with `webTargetsStateless`, where the health record of `i-2` is present
without a state, it panics and returns no answer at all. -/
theorem getTargetsHealth_missing_health_record :
    isMember webGroup ⟨some ⟨some "i-2"⟩, none⟩ = true ∧
    (⟨some ⟨some "i-2"⟩, none⟩ : TargetHealthDescription).state = none ∧
    (⟨some ⟨some "i-2"⟩, none⟩ : TargetHealthDescription) ∈ webTargetsMissing ∧
    (getTargetsHealth (tableProvider (.ok [webGroup]) ([], none) (.ok webTargetsMissing) [])
        "web-1" "arn:tg/x" World.start).1 = .ok true ∧
    (getTargetsHealth (tableProvider (.ok [webGroup]) ([], none) (.ok webTargetsMissing) [])
        "web-1" "arn:tg/x" World.start).1 ≠ .ok false ∧
    isMember webGroup ⟨some ⟨some "i-2"⟩, some ⟨none⟩⟩ = true ∧
    (⟨some ⟨some "i-2"⟩, some ⟨none⟩⟩ : TargetHealthDescription).state = none ∧
    (⟨some ⟨some "i-2"⟩, some ⟨none⟩⟩ : TargetHealthDescription) ∈ webTargetsStateless ∧
    (getTargetsHealth (tableProvider (.ok [webGroup]) ([], none) (.ok webTargetsStateless) [])
        "web-1" "arn:tg/x" World.start).1 = .panic := by
  refine ⟨by decide, rfl, by simp [webTargetsMissing], by decide, by decide, by decide, rfl,
    by simp [webTargetsStateless], by decide⟩

/-- What the code as written computes when health records may be missing (the
behaviour shown faulty above, not a requirement): with the group record well
formed and every health record that is present carrying a state,
`getTargetsHealth` returns a boolean that is `true` exactly when every matching
description either lacks its health record or has state `healthy`, and the
matching descriptions number at least the desired capacity. -/
theorem getTargetsHealth_healthy_or_missing {σ : Type} (p : Provider σ) (w : World σ)
    (asgName targetGroupARN : String) (asg : Group) (others : List Group) (s1 s2 : σ)
    (ds : List TargetHealthDescription) (d : Int)
    (hdescribe : p.DescribeAutoScalingGroups w.state [asgName] = (.ok (asg :: others), s1))
    (hhealth : p.DescribeTargetHealth s1 targetGroupARN = (.ok ds, s2))
    (hcap : asg.DesiredCapacity = some d)
    (hids : ∀ i ∈ asg.Instances, i.InstanceId.isSome = true)
    (htarget : ∀ t ∈ ds, t.Target.isSome = true)
    (hstate : ∀ t ∈ ds, ∀ th, t.TargetHealth = some th → th.State.isSome = true) :
    ∃ b, (getTargetsHealth p asgName targetGroupARN w).1 = .ok b ∧
      (b = true ↔
        (∀ t ∈ ds, isMember asg t = true →
          t.TargetHealth = none ∨ t.state = some "healthy") ∧
        d ≤ ((ds.filter (isMember asg)).length : Int)) := by
  have hrun : (getTargetsHealth p asgName targetGroupARN w).1 = getTargetsHealthLoop asg ds 0 := by
    simp [getTargetsHealth, hdescribe, hhealth]
  obtain ⟨b, hb, hiff⟩ := getTargetsHealthLoop_spec asg d ds 0 hcap hids htarget hstate
  exact ⟨b, hrun.trans hb, by rw [hiff, zero_add]⟩

/-- The characterisation above at a concrete run: `webGroup` with
`webTargetsMissing`. -/
theorem getTargetsHealth_healthy_or_missing_witness :
    ∃ b, (getTargetsHealth (tableProvider (.ok [webGroup]) ([], none) (.ok webTargetsMissing) [])
        "web-1" "arn:tg/x" World.start).1 = .ok b ∧
      (b = true ↔
        (∀ t ∈ webTargetsMissing, isMember webGroup t = true →
          t.TargetHealth = none ∨ t.state = some "healthy") ∧
        (2 : Int) ≤ ((webTargetsMissing.filter (isMember webGroup)).length : Int)) :=
  getTargetsHealth_healthy_or_missing
    (tableProvider (.ok [webGroup]) ([], none) (.ok webTargetsMissing) [])
    World.start "web-1" "arn:tg/x" webGroup [] () () webTargetsMissing 2 rfl rfl rfl
    (by decide) (by decide) (by decide)

/-! ## The reaper: collecting the deletion list -/

theorem visitTags_ok (stackName newASG : String) (asg : Group) (tags : List TagDescription)
    (acc l : List String) (h : visitTags stackName newASG asg tags acc = .ok l) :
    l = acc ++ entriesOf stackName newASG asg.AutoScalingGroupName tags := by
  induction tags generalizing acc with
  | nil =>
    simp only [visitTags, Result.ok.injEq] at h
    cases hn : asg.AutoScalingGroupName <;> simp [entriesOf, h]
  | cons tag rest ih =>
    unfold visitTags at h
    cases hk : tag.Key with
    | none => simp [hk] at h
    | some key =>
      simp only [hk] at h
      by_cases hkey : key = risrStackName
      · simp only [hkey, if_true] at h
        cases hv : tag.Value with
        | none => simp [hv] at h
        | some value =>
          simp only [hv] at h
          by_cases hval : value = stackName
          · simp only [hval, if_true] at h
            have hctl : isControlTag stackName tag = true := by
              simp [isControlTag, hk, hv, hkey, hval]
            cases hn : asg.AutoScalingGroupName with
            | none => simp [hn] at h
            | some name =>
              simp only [hn] at h
              by_cases hne : name = newASG
              · simp only [hne, ne_eq, not_true_eq_false, if_false] at h
                have := ih acc h
                simpa [entriesOf, hn, hne] using this
              · simp only [ne_eq, hne, not_false_eq_true, if_true] at h
                have := ih (acc ++ [name]) h
                rw [this]
                simp [entriesOf, hn, hne, List.countP_cons_of_pos _ _ hctl, List.replicate_succ]
          · simp only [hval, if_false] at h
            have hctl : ¬ isControlTag stackName tag = true := by
              simp [isControlTag, hk, hv, hval]
            have := ih acc h
            rw [this]
            simp [entriesOf, List.countP_cons_of_neg _ _ hctl]
      · simp only [hkey, if_false] at h
        have hctl : ¬ isControlTag stackName tag = true := by
          simp [isControlTag, hk, hkey]
        have := ih acc h
        rw [this]
        simp [entriesOf, List.countP_cons_of_neg _ _ hctl]

theorem visitTags_total (stackName newASG : String) (asg : Group) (tags : List TagDescription)
    (acc : List String) (hname : asg.AutoScalingGroupName.isSome = true)
    (htags : ∀ t ∈ tags, t.Key.isSome = true ∧ t.Value.isSome = true) :
    ∃ l, visitTags stackName newASG asg tags acc = .ok l := by
  induction tags generalizing acc with
  | nil => exact ⟨acc, rfl⟩
  | cons tag rest ih =>
    have hrest : ∀ t ∈ rest, t.Key.isSome = true ∧ t.Value.isSome = true :=
      fun t ht => htags t (List.mem_cons_of_mem _ ht)
    obtain ⟨hk, hv⟩ := htags tag (List.mem_cons_self _ _)
    obtain ⟨key, hk⟩ := Option.isSome_iff_exists.mp hk
    obtain ⟨value, hv⟩ := Option.isSome_iff_exists.mp hv
    obtain ⟨name, hn⟩ := Option.isSome_iff_exists.mp hname
    unfold visitTags
    simp only [hk, hv, hn]
    split_ifs
    · exact ih _ hrest
    · exact ih _ hrest
    · exact ih _ hrest
    · exact ih _ hrest

theorem visitGroups_ok (stackName newASG : String) (groups : List Group)
    (acc l : List String) (h : visitGroups stackName newASG groups acc = .ok l) :
    l = acc ++ groups.flatMap (entries stackName newASG) := by
  induction groups generalizing acc with
  | nil => simpa [visitGroups] using h.symm
  | cons asg rest ih =>
    unfold visitGroups at h
    cases hv : visitTags stackName newASG asg asg.Tags acc with
    | ok acc1 =>
      simp only [hv] at h
      rw [ih acc1 h, visitTags_ok stackName newASG asg asg.Tags acc acc1 hv]
      simp [entries]
    | error e => simp [hv] at h
    | panic => simp [hv] at h

theorem visitGroups_total (stackName newASG : String) (groups : List Group)
    (acc : List String) (htagged : ∀ g ∈ groups, g.tagged) :
    ∃ l, visitGroups stackName newASG groups acc = .ok l := by
  induction groups generalizing acc with
  | nil => exact ⟨acc, rfl⟩
  | cons asg rest ih =>
    obtain ⟨hname, htags⟩ := htagged asg (List.mem_cons_self _ _)
    obtain ⟨acc1, h1⟩ := visitTags_total stackName newASG asg asg.Tags acc hname htags
    obtain ⟨l, hl⟩ := ih acc1 (fun g hg => htagged g (List.mem_cons_of_mem _ hg))
    exact ⟨l, by simp [visitGroups, h1, hl]⟩

theorem visitPages_ok (stackName newASG : String) (pages : List (List Group))
    (acc l : List String) (h : visitPages stackName newASG pages acc = .ok l) :
    l = acc ++ pages.flatten.flatMap (entries stackName newASG) := by
  induction pages generalizing acc with
  | nil => simpa [visitPages] using h.symm
  | cons page rest ih =>
    unfold visitPages at h
    cases hv : visitGroups stackName newASG page acc with
    | ok acc1 =>
      simp only [hv] at h
      rw [ih acc1 h, visitGroups_ok stackName newASG page acc acc1 hv]
      simp [List.flatMap_append]
    | error e => simp [hv] at h
    | panic => simp [hv] at h

theorem visitPages_total (stackName newASG : String) (pages : List (List Group))
    (acc : List String) (htagged : ∀ g ∈ pages.flatten, g.tagged) :
    ∃ l, visitPages stackName newASG pages acc = .ok l := by
  induction pages generalizing acc with
  | nil => exact ⟨acc, rfl⟩
  | cons page rest ih =>
    obtain ⟨acc1, h1⟩ := visitGroups_total stackName newASG page acc
      (fun g hg => htagged g (by simp [hg]))
    obtain ⟨l, hl⟩ := ih acc1 (fun g hg => htagged g (by
      rw [List.flatten_cons, List.mem_append]; exact Or.inr hg))
    exact ⟨l, by simp [visitPages, h1, hl]⟩

theorem mem_entries (stackName newASG : String) (g : Group) (n : String) :
    n ∈ entries stackName newASG g ↔
      g.AutoScalingGroupName = some n ∧ n ≠ newASG ∧ hasControlTag stackName g := by
  unfold entries entriesOf hasControlTag
  cases hn : g.AutoScalingGroupName with
  | none => simp
  | some m =>
    by_cases hne : m = newASG
    · subst hne
      simp only [ne_eq, not_true_eq_false, if_false, List.not_mem_nil, Option.some.injEq,
        false_iff, not_and]
      intro h1 h2
      exact absurd h1.symm h2
    · simp only [ne_eq, hne, not_false_eq_true, if_true, List.mem_replicate, Option.some.injEq]
      constructor
      · rintro ⟨hc, rfl⟩
        refine ⟨rfl, hne, ?_⟩
        obtain ⟨t, ht, htc⟩ := List.countP_pos_iff.mp (Nat.pos_of_ne_zero hc)
        exact ⟨t, ht, by simpa [isControlTag] using htc⟩
      · rintro ⟨rfl, _, t, ht, htc⟩
        refine ⟨?_, rfl⟩
        apply Nat.ne_of_gt
        exact List.countP_pos_iff.mpr ⟨t, ht, by simpa [isControlTag] using htc⟩

theorem entries_once (stackName newASG : String) (g : Group) (htagged : g.tagged)
    (hone : g.Tags.countP (isControlTag stackName) ≤ 1) :
    entries stackName newASG g =
      if isOld stackName newASG g = true then g.AutoScalingGroupName.toList else [] := by
  obtain ⟨m, hm⟩ := Option.isSome_iff_exists.mp htagged.1
  unfold entries entriesOf isOld
  by_cases hne : m = newASG
  · simp [hm, hne]
  · rcases Nat.le_one_iff_eq_zero_or_eq_one.mp hone with h0 | h1
    · have hany : g.Tags.any (isControlTag stackName) = false := by
        rw [List.countP_eq_zero] at h0
        rw [Bool.eq_false_iff]
        intro h
        obtain ⟨t, ht, htc⟩ := List.any_eq_true.mp h
        exact h0 t ht htc
      simp [hm, hne, h0, hany]
    · have hany : g.Tags.any (isControlTag stackName) = true := by
        obtain ⟨t, ht, htc⟩ := List.countP_pos_iff.mp (by rw [h1]; exact Nat.one_pos)
        exact List.any_eq_true.mpr ⟨t, ht, htc⟩
      simp [hm, hne, h1, hany]

theorem flatMap_entries_once (stackName newASG : String) (groups : List Group)
    (htagged : ∀ g ∈ groups, g.tagged)
    (hone : ∀ g ∈ groups, g.Tags.countP (isControlTag stackName) ≤ 1) :
    groups.flatMap (entries stackName newASG) =
      (groups.filter (isOld stackName newASG)).filterMap (fun g => g.AutoScalingGroupName) := by
  induction groups with
  | nil => rfl
  | cons g rest ih =>
    have hrest := ih (fun x hx => htagged x (List.mem_cons_of_mem _ hx))
      (fun x hx => hone x (List.mem_cons_of_mem _ hx))
    obtain ⟨m, hm⟩ := Option.isSome_iff_exists.mp (htagged g (List.mem_cons_self _ _)).1
    rw [List.flatMap_cons, hrest,
      entries_once stackName newASG g (htagged g (List.mem_cons_self _ _))
        (hone g (List.mem_cons_self _ _))]
    cases hold : isOld stackName newASG g with
    | false => simp [hold]
    | true => simp [hold, hm]

/-! ## The reaper: deleting -/

theorem deleteCalls_append (a b : List Event) :
    deleteCalls (a ++ b) = deleteCalls a ++ deleteCalls b := by
  induction a with
  | nil => rfl
  | cons ev rest ih =>
    obtain ⟨c, e⟩ := ev
    cases c <;> simp [deleteCalls, ih]

theorem deleteCalls_deleted (l : List String) :
    deleteCalls (l.map (fun n => deleteEvent n none)) =
      l.map (fun n => (⟨some n, some true⟩ : DeleteAutoScalingGroupInput)) := by
  induction l with
  | nil => rfl
  | cons n rest ih =>
    rw [List.map_cons, List.map_cons, ← ih]
    rfl

theorem deleteLoop_spec {σ : Type} (p : Provider σ) (l : List String) (w : World σ) :
    ((deleteLoop p l w).1 = .ok () ∧
      (deleteLoop p l w).2.trace = w.trace ++ l.map (fun n => deleteEvent n none)) ∨
    (∃ pre n post e s, l = pre ++ n :: post ∧ (deleteLoop p l w).1 = .error e ∧
      (deleteLoop p l w).2.trace =
        w.trace ++ (pre.map (fun n => deleteEvent n none) ++ [deleteEvent n (some e)]) ∧
      p.DeleteAutoScalingGroup s ⟨some n, some true⟩ = (some e, (deleteLoop p l w).2.state)) := by
  induction l generalizing w with
  | nil => exact Or.inl ⟨rfl, by simp [deleteLoop]⟩
  | cons del rest ih =>
    cases hr : (p.DeleteAutoScalingGroup w.state ⟨some del, some true⟩).1 with
    | some e =>
      refine Or.inr ⟨[], del, rest, e, w.state, rfl, ?_, ?_, ?_⟩
      · simp [deleteLoop, hr]
      · simp [deleteLoop, hr, deleteEvent]
      · simp only [deleteLoop, hr]
        exact Prod.ext hr rfl
    | none =>
      have hstep : deleteLoop p (del :: rest) w =
          deleteLoop p rest ⟨(p.DeleteAutoScalingGroup w.state ⟨some del, some true⟩).2,
            w.trace ++ [deleteEvent del none]⟩ := by
        simp [deleteLoop, hr, deleteEvent]
      rw [hstep]
      rcases ih ⟨(p.DeleteAutoScalingGroup w.state ⟨some del, some true⟩).2,
          w.trace ++ [deleteEvent del none]⟩ with ⟨h1, h2⟩ | ⟨pre, n, post, e, s, h1, h2, h3, h4⟩
      · exact Or.inl ⟨h1, by rw [h2]; simp⟩
      · exact Or.inr ⟨del :: pre, n, post, e, s, by rw [h1]; rfl, h2, by rw [h3]; simp, h4⟩

theorem deleteCalls_failed (pre : List String) (n : String) (e : Option Error) :
    deleteCalls (pre.map (fun n => deleteEvent n none) ++ [deleteEvent n e]) =
      (pre ++ [n]).map (fun n => (⟨some n, some true⟩ : DeleteAutoScalingGroupInput)) := by
  rw [deleteCalls_append, deleteCalls_deleted, List.map_append]
  rfl

theorem dropOldASGs_of_ok {σ : Type} (p : Provider σ) (w : World σ) (stackName newASG : String)
    (pages : List (List Group)) (err : Option Error) (s1 : σ) (forDeletion : List String)
    (henum : p.DescribeAutoScalingGroupsPages w.state = ((pages, err), s1))
    (hvisit : visitPages stackName newASG pages [] = .ok forDeletion) :
    dropOldASGs p stackName newASG w =
      match err with
      | some e => (.error e, ⟨s1, w.trace ++ [⟨.DescribeAutoScalingGroupsPages, err⟩]⟩)
      | none => deleteLoop p forDeletion
          ⟨s1, w.trace ++ [⟨.DescribeAutoScalingGroupsPages, err⟩]⟩ := by
  unfold dropOldASGs
  simp only [henum, hvisit]
  cases err <;> rfl

theorem dropOldASGs_of_not_ok {σ : Type} (p : Provider σ) (w : World σ)
    (stackName newASG : String) (pages : List (List Group)) (err : Option Error) (s1 : σ)
    (henum : p.DescribeAutoScalingGroupsPages w.state = ((pages, err), s1))
    (hvisit : ∀ l, visitPages stackName newASG pages [] ≠ .ok l) :
    (dropOldASGs p stackName newASG w).1 ≠ .ok () ∧
    (dropOldASGs p stackName newASG w).2.trace =
      w.trace ++ [⟨.DescribeAutoScalingGroupsPages, err⟩] := by
  unfold dropOldASGs
  simp only [henum]
  cases hv : visitPages stackName newASG pages [] with
  | ok l => exact absurd hv (hvisit l)
  | error e => exact ⟨by simp, rfl⟩
  | panic => exact ⟨by simp, rfl⟩

/-- C3: whatever the paged enumeration delivers, every `DeleteAutoScalingGroup`
call issued by `dropOldASGs` is a forced delete of the name of an enumerated
group that carries the control tag for `stackName` and whose name differs from
`newASG`; and when the enumerated records are well formed and every issued
call succeeded, `dropOldASGs` returns success and every such group has been
deleted. -/
theorem dropOldASGs_scope {σ : Type} (p : Provider σ) (w : World σ) (stackName newASG : String)
    (pages : List (List Group)) (err : Option Error) (s1 : σ)
    (henum : p.DescribeAutoScalingGroupsPages w.state = ((pages, err), s1)) :
    ∃ issued, (dropOldASGs p stackName newASG w).2.trace = w.trace ++ issued ∧
      (∀ input ∈ deleteCalls issued, ∃ g ∈ pages.flatten, ∃ n,
        g.AutoScalingGroupName = some n ∧ input = ⟨some n, some true⟩ ∧
        hasControlTag stackName g ∧ n ≠ newASG) ∧
      ((∀ g ∈ pages.flatten, g.tagged) → (∀ ev ∈ issued, ev.err = none) →
        (dropOldASGs p stackName newASG w).1 = .ok () ∧
        ∀ g ∈ pages.flatten, hasControlTag stackName g →
          ∀ n, g.AutoScalingGroupName = some n → n ≠ newASG →
            deleteEvent n none ∈ issued) := by
  cases hv : visitPages stackName newASG pages [] with
  | ok dels =>
    have hdels : ∀ n, n ∈ dels ↔ ∃ g ∈ pages.flatten,
        g.AutoScalingGroupName = some n ∧ n ≠ newASG ∧ hasControlTag stackName g := by
      intro n
      rw [visitPages_ok stackName newASG pages [] dels hv, List.nil_append, List.mem_flatMap]
      exact exists_congr (fun g => and_congr_right (fun _ => mem_entries stackName newASG g n))
    have hscope : ∀ l : List String, (∀ n ∈ l, n ∈ dels) →
        ∀ input ∈ l.map (fun n => (⟨some n, some true⟩ : DeleteAutoScalingGroupInput)),
          ∃ g ∈ pages.flatten, ∃ n, g.AutoScalingGroupName = some n ∧
            input = ⟨some n, some true⟩ ∧ hasControlTag stackName g ∧ n ≠ newASG := by
      intro l hl input hinput
      obtain ⟨n, hn, rfl⟩ := List.mem_map.mp hinput
      obtain ⟨g, hg, h1, h2, h3⟩ := (hdels n).mp (hl n hn)
      exact ⟨g, hg, n, h1, rfl, h3, h2⟩
    rw [dropOldASGs_of_ok p w stackName newASG pages err s1 dels henum hv]
    cases err with
    | some e =>
      refine ⟨[⟨.DescribeAutoScalingGroupsPages, some e⟩], rfl, by simp [deleteCalls], ?_⟩
      intro _ hall
      have := hall _ (List.mem_singleton_self _)
      simp at this
    | none =>
      simp only
      rcases deleteLoop_spec p dels ⟨s1, w.trace ++ [⟨.DescribeAutoScalingGroupsPages, none⟩]⟩
        with ⟨h1, h2⟩ | ⟨pre, n, post, e, s, h1, h2, h3, h4⟩
      · refine ⟨⟨.DescribeAutoScalingGroupsPages, none⟩ :: dels.map (fun n => deleteEvent n none),
          by rw [h2]; simp, ?_, ?_⟩
        · intro input hinput
          have hcalls : deleteCalls (⟨.DescribeAutoScalingGroupsPages, none⟩ ::
              dels.map (fun n => deleteEvent n none)) =
              dels.map (fun n => (⟨some n, some true⟩ : DeleteAutoScalingGroupInput)) := by
            rw [← deleteCalls_deleted]; rfl
          rw [hcalls] at hinput
          exact hscope dels (fun _ h => h) input hinput
        · intro _ _
          refine ⟨h1, ?_⟩
          intro g hg hctl n hn hne
          have hmem : n ∈ dels := (hdels n).mpr ⟨g, hg, hn, hne, hctl⟩
          exact List.mem_cons_of_mem _ (List.mem_map.mpr ⟨n, hmem, rfl⟩)
      · refine ⟨⟨.DescribeAutoScalingGroupsPages, none⟩ ::
          (pre.map (fun n => deleteEvent n none) ++ [deleteEvent n (some e)]),
          by rw [h3]; simp, ?_, ?_⟩
        · intro input hinput
          have hcalls : deleteCalls (⟨.DescribeAutoScalingGroupsPages, none⟩ ::
              (pre.map (fun n => deleteEvent n none) ++ [deleteEvent n (some e)])) =
              (pre ++ [n]).map (fun n => (⟨some n, some true⟩ : DeleteAutoScalingGroupInput)) := by
            rw [← deleteCalls_failed]; rfl
          rw [hcalls] at hinput
          refine hscope (pre ++ [n]) ?_ input hinput
          intro x hx
          rw [h1]
          rcases List.mem_append.mp hx with hx | hx
          · exact List.mem_append_left _ hx
          · rw [List.mem_singleton] at hx
            subst hx
            exact List.mem_append_right _ (List.mem_cons_self _ _)
        · intro _ hall
          have := hall (deleteEvent n (some e)) (by simp)
          simp [deleteEvent] at this
  | error e1 =>
    obtain ⟨h1, h2⟩ := dropOldASGs_of_not_ok p w stackName newASG pages err s1 henum
      (by intro l; rw [hv]; simp)
    refine ⟨[⟨.DescribeAutoScalingGroupsPages, err⟩], h2, by simp [deleteCalls], ?_⟩
    intro htagged _
    obtain ⟨l, hl⟩ := visitPages_total stackName newASG pages [] htagged
    rw [hl] at hv
    cases hv
  | panic =>
    obtain ⟨h1, h2⟩ := dropOldASGs_of_not_ok p w stackName newASG pages err s1 henum
      (by intro l; rw [hv]; simp)
    refine ⟨[⟨.DescribeAutoScalingGroupsPages, err⟩], h2, by simp [deleteCalls], ?_⟩
    intro htagged _
    obtain ⟨l, hl⟩ := visitPages_total stackName newASG pages [] htagged
    rw [hl] at hv
    cases hv

/-- C3 at a concrete run: reaping stack `web` over `accountPages`. -/
theorem dropOldASGs_scope_witness :
    ∃ issued, (dropOldASGs (tableProvider (.ok []) (accountPages, none) (.ok []) [])
        "web" "web-new" World.start).2.trace = World.start.trace ++ issued ∧
      (∀ input ∈ deleteCalls issued, ∃ g ∈ accountPages.flatten, ∃ n,
        g.AutoScalingGroupName = some n ∧ input = ⟨some n, some true⟩ ∧
        hasControlTag "web" g ∧ n ≠ "web-new") ∧
      ((∀ g ∈ accountPages.flatten, g.tagged) → (∀ ev ∈ issued, ev.err = none) →
        (dropOldASGs (tableProvider (.ok []) (accountPages, none) (.ok []) [])
          "web" "web-new" World.start).1 = .ok () ∧
        ∀ g ∈ accountPages.flatten, hasControlTag "web" g →
          ∀ n, g.AutoScalingGroupName = some n → n ≠ "web-new" →
            deleteEvent n none ∈ issued) :=
  dropOldASGs_scope (tableProvider (.ok []) (accountPages, none) (.ok []) []) World.start
    "web" "web-new" accountPages none () rfl

/-- C5, as stated, fails: a group carrying the control tag twice is put on the
deletion list twice, and two delete calls are issued for it. -/
theorem dropOldASGs_twice_tagged_counterexample :
    visitPages "web" "web-new" [[twiceTagged]] [] = .ok ["web-old", "web-old"] ∧
    deleteCalls (dropOldASGs (tableProvider (.ok []) ([[twiceTagged]], none) (.ok []) [])
      "web" "web-new" World.start).2.trace =
      [⟨some "web-old", some true⟩, ⟨some "web-old", some true⟩] := by
  decide

/-- C5 amended: for well-formed enumerated records, each enumerated group
contributes to the deletion list its name once per tag of the group that equals
the control tag, and nothing when it is named `newASG`; the deletion list of
`dropOldASGs` is these contributions in enumeration order, and the delete calls
issued are an initial segment of it, one call per entry. Hence, when every
enumerated group carries at most one tag equal to the control tag, the deletion
list holds each enumerated old group exactly once, in enumeration order. -/
theorem dropOldASGs_once_per_tag {σ : Type} (p : Provider σ) (w : World σ)
    (stackName newASG : String) (pages : List (List Group)) (err : Option Error) (s1 : σ)
    (henum : p.DescribeAutoScalingGroupsPages w.state = ((pages, err), s1))
    (htagged : ∀ g ∈ pages.flatten, g.tagged) :
    (∀ g ∈ pages.flatten, ∃ n, g.AutoScalingGroupName = some n ∧
      entries stackName newASG g =
        if n = newASG then []
        else List.replicate (g.Tags.countP (isControlTag stackName)) n) ∧
    visitPages stackName newASG pages [] =
      .ok (pages.flatten.flatMap (entries stackName newASG)) ∧
    (∃ issued later,
      (dropOldASGs p stackName newASG w).2.trace =
        w.trace ++ ⟨.DescribeAutoScalingGroupsPages, err⟩ :: issued ∧
      deleteCalls issued ++ later =
        (pages.flatten.flatMap (entries stackName newASG)).map
          (fun n => (⟨some n, some true⟩ : DeleteAutoScalingGroupInput))) ∧
    ((∀ g ∈ pages.flatten, g.Tags.countP (isControlTag stackName) ≤ 1) →
      pages.flatten.flatMap (entries stackName newASG) =
        (pages.flatten.filter (isOld stackName newASG)).filterMap
          (fun g => g.AutoScalingGroupName)) := by
  obtain ⟨dels, hv⟩ := visitPages_total stackName newASG pages [] htagged
  have hdels := visitPages_ok stackName newASG pages [] dels hv
  rw [List.nil_append] at hdels
  rw [← hdels]
  refine ⟨?_, hv, ?_, ?_⟩
  · intro g hg
    obtain ⟨n, hn⟩ := Option.isSome_iff_exists.mp (htagged g hg).1
    refine ⟨n, hn, ?_⟩
    by_cases hne : n = newASG <;> simp [entries, entriesOf, hn, hne]
  · rw [dropOldASGs_of_ok p w stackName newASG pages err s1 dels henum hv]
    cases err with
    | some e =>
      exact ⟨[], dels.map (fun n => (⟨some n, some true⟩ : DeleteAutoScalingGroupInput)),
        rfl, rfl⟩
    | none =>
      rcases deleteLoop_spec p dels ⟨s1, w.trace ++ [⟨.DescribeAutoScalingGroupsPages, none⟩]⟩
        with ⟨_, h2⟩ | ⟨pre, n, post, e, s, h1, _, h3, _⟩
      · refine ⟨dels.map (fun n => deleteEvent n none), [], ?_, ?_⟩
        · show (deleteLoop p dels _).2.trace = _
          rw [h2, List.append_assoc]
          rfl
        · rw [deleteCalls_deleted, List.append_nil]
      · refine ⟨pre.map (fun n => deleteEvent n none) ++ [deleteEvent n (some e)],
          post.map (fun n => (⟨some n, some true⟩ : DeleteAutoScalingGroupInput)), ?_, ?_⟩
        · show (deleteLoop p dels _).2.trace = _
          rw [h3, List.append_assoc]
          rfl
        · rw [deleteCalls_failed, h1, ← List.map_append]
          simp
  · intro hone
    rw [hdels]
    exact flatMap_entries_once stackName newASG pages.flatten htagged hone

/-- C5 amended at concrete runs: over `twicePages` the twice-tagged group is
listed twice and deleted twice; over `accountPages`, where no group carries
the control tag more than once, each old group is listed once. -/
theorem dropOldASGs_once_per_tag_witness :
    visitPages "web" "web-new" twicePages [] = .ok ["web-old", "web-old", "web-older"] ∧
    (∃ issued later,
      (dropOldASGs (tableProvider (.ok []) (twicePages, none) (.ok []) []) "web" "web-new"
        World.start).2.trace =
        World.start.trace ++ ⟨.DescribeAutoScalingGroupsPages, none⟩ :: issued ∧
      deleteCalls issued ++ later =
        (twicePages.flatten.flatMap (entries "web" "web-new")).map
          (fun n => (⟨some n, some true⟩ : DeleteAutoScalingGroupInput))) ∧
    accountPages.flatten.flatMap (entries "web" "web-new") =
      (accountPages.flatten.filter (isOld "web" "web-new")).filterMap
        (fun g => g.AutoScalingGroupName) ∧
    visitPages "web" "web-new" accountPages [] = .ok ["web-old", "web-older"] :=
  ⟨(dropOldASGs_once_per_tag (tableProvider (.ok []) (twicePages, none) (.ok []) [])
      World.start "web" "web-new" twicePages none () rfl (by decide)).2.1.trans (by decide),
    (dropOldASGs_once_per_tag (tableProvider (.ok []) (twicePages, none) (.ok []) [])
      World.start "web" "web-new" twicePages none () rfl (by decide)).2.2.1,
    (dropOldASGs_once_per_tag (tableProvider (.ok []) (accountPages, none) (.ok []) [])
      World.start "web" "web-new" accountPages none () rfl (by decide)).2.2.2 (by decide),
    (dropOldASGs_once_per_tag (tableProvider (.ok []) (accountPages, none) (.ok []) [])
      World.start "web" "web-new" accountPages none () rfl (by decide)).2.1.trans (by decide)⟩

/-- C9: after a successful enumeration that collected `forDeletion`, the calls
issued by `dropOldASGs` are the enumeration followed by forced deletes of the
entries of `forDeletion` in order. Either all of them succeed and the result
is success, or the deletes stop at the first entry `n` whose delete returns an
error `e`: every earlier delete succeeded, the result is `e`, and nothing is
issued after the failing call. -/
theorem dropOldASGs_delete_order {σ : Type} (p : Provider σ) (w : World σ)
    (stackName newASG : String) (pages : List (List Group)) (s1 : σ)
    (forDeletion : List String)
    (henum : p.DescribeAutoScalingGroupsPages w.state = ((pages, none), s1))
    (hvisit : visitPages stackName newASG pages [] = .ok forDeletion) :
    ((dropOldASGs p stackName newASG w).1 = .ok () ∧
      (dropOldASGs p stackName newASG w).2.trace =
        w.trace ++ ⟨.DescribeAutoScalingGroupsPages, none⟩ ::
          forDeletion.map (fun n => deleteEvent n none)) ∨
    (∃ pre n post e s, forDeletion = pre ++ n :: post ∧
      (dropOldASGs p stackName newASG w).1 = .error e ∧
      (dropOldASGs p stackName newASG w).2.trace =
        w.trace ++ ⟨.DescribeAutoScalingGroupsPages, none⟩ ::
          (pre.map (fun n => deleteEvent n none) ++ [deleteEvent n (some e)]) ∧
      p.DeleteAutoScalingGroup s ⟨some n, some true⟩ =
        (some e, (dropOldASGs p stackName newASG w).2.state)) := by
  rw [dropOldASGs_of_ok p w stackName newASG pages none s1 forDeletion henum hvisit]
  simp only
  rcases deleteLoop_spec p forDeletion ⟨s1, w.trace ++ [⟨.DescribeAutoScalingGroupsPages, none⟩]⟩
    with ⟨h1, h2⟩ | ⟨pre, n, post, e, s, h1, h2, h3, h4⟩
  · exact Or.inl ⟨h1, by rw [h2]; simp⟩
  · exact Or.inr ⟨pre, n, post, e, s, h1, h2, by rw [h3]; simp, h4⟩

/-- C9 at a concrete run: the delete of `web-old` fails, so `web-older` is
never deleted. -/
theorem dropOldASGs_delete_order_witness :
    ((dropOldASGs (tableProvider (.ok []) (accountPages, none) (.ok []) ["web-old"])
        "web" "web-new" World.start).1 = .ok () ∧
      (dropOldASGs (tableProvider (.ok []) (accountPages, none) (.ok []) ["web-old"])
        "web" "web-new" World.start).2.trace =
        World.start.trace ++ ⟨.DescribeAutoScalingGroupsPages, none⟩ ::
          ["web-old", "web-older"].map (fun n => deleteEvent n none)) ∨
    (∃ pre n post e s, ["web-old", "web-older"] = pre ++ n :: post ∧
      (dropOldASGs (tableProvider (.ok []) (accountPages, none) (.ok []) ["web-old"])
        "web" "web-new" World.start).1 = .error e ∧
      (dropOldASGs (tableProvider (.ok []) (accountPages, none) (.ok []) ["web-old"])
        "web" "web-new" World.start).2.trace =
        World.start.trace ++ ⟨.DescribeAutoScalingGroupsPages, none⟩ ::
          (pre.map (fun n => deleteEvent n none) ++ [deleteEvent n (some e)]) ∧
      (tableProvider (.ok []) (accountPages, none) (.ok []) ["web-old"]).DeleteAutoScalingGroup s
          ⟨some n, some true⟩ =
        (some e, (dropOldASGs (tableProvider (.ok []) (accountPages, none) (.ok []) ["web-old"])
          "web" "web-new" World.start).2.state)) :=
  dropOldASGs_delete_order (tableProvider (.ok []) (accountPages, none) (.ok []) ["web-old"])
    World.start "web" "web-new" accountPages () ["web-old", "web-older"] rfl (by decide)

/-- C10: when the paged enumeration returns an error `e`, the only call
`dropOldASGs` issues is the enumeration itself, so no group is deleted,
whatever the visited pages contained; and with well-formed records on those
pages the result is exactly `e`. -/
theorem dropOldASGs_enumeration_error {σ : Type} (p : Provider σ) (w : World σ)
    (stackName newASG : String) (pages : List (List Group)) (e : Error) (s1 : σ)
    (henum : p.DescribeAutoScalingGroupsPages w.state = ((pages, some e), s1)) :
    (dropOldASGs p stackName newASG w).2.trace =
        w.trace ++ [⟨.DescribeAutoScalingGroupsPages, some e⟩] ∧
    deleteCalls (dropOldASGs p stackName newASG w).2.trace = deleteCalls w.trace ∧
    ((∀ g ∈ pages.flatten, g.tagged) → (dropOldASGs p stackName newASG w).1 = .error e) := by
  have htrace : (dropOldASGs p stackName newASG w).2.trace =
      w.trace ++ [⟨.DescribeAutoScalingGroupsPages, some e⟩] := by
    cases hv : visitPages stackName newASG pages [] with
    | ok dels => rw [dropOldASGs_of_ok p w stackName newASG pages (some e) s1 dels henum hv]
    | error e1 =>
      exact (dropOldASGs_of_not_ok p w stackName newASG pages (some e) s1 henum
        (by intro l; rw [hv]; simp)).2
    | panic =>
      exact (dropOldASGs_of_not_ok p w stackName newASG pages (some e) s1 henum
        (by intro l; rw [hv]; simp)).2
  refine ⟨htrace, ?_, ?_⟩
  · rw [htrace, deleteCalls_append]
    simp [deleteCalls]
  · intro htagged
    obtain ⟨dels, hv⟩ := visitPages_total stackName newASG pages [] htagged
    rw [dropOldASGs_of_ok p w stackName newASG pages (some e) s1 dels henum hv]

/-- C10 at a concrete run: the enumeration fails after two pages. -/
theorem dropOldASGs_enumeration_error_witness :
    (dropOldASGs (tableProvider (.ok []) (accountPages, some (.provider "Throttling")) (.ok []) [])
        "web" "web-new" World.start).2.trace =
        World.start.trace ++
          [⟨.DescribeAutoScalingGroupsPages, some (.provider "Throttling")⟩] ∧
    deleteCalls (dropOldASGs
        (tableProvider (.ok []) (accountPages, some (.provider "Throttling")) (.ok []) [])
        "web" "web-new" World.start).2.trace = deleteCalls World.start.trace ∧
    (dropOldASGs (tableProvider (.ok []) (accountPages, some (.provider "Throttling")) (.ok []) [])
        "web" "web-new" World.start).1 = .error (.provider "Throttling") :=
  have h := dropOldASGs_enumeration_error
    (tableProvider (.ok []) (accountPages, some (.provider "Throttling")) (.ok []) [])
    World.start "web" "web-new" accountPages (.provider "Throttling") () rfl
  ⟨h.1, h.2.1, h.2.2 (by decide)⟩

/-! ## Discovery across stacks -/

theorem visitTags_no_control (stackName newASG : String) (asg : Group)
    (tags : List TagDescription) (acc : List String)
    (htags : ∀ t ∈ tags, t.Key.isSome = true ∧ t.Value.isSome = true ∧
      isControlTag stackName t = false) :
    visitTags stackName newASG asg tags acc = .ok acc := by
  induction tags with
  | nil => rfl
  | cons tag rest ih =>
    obtain ⟨hk, hv, hc⟩ := htags tag (List.mem_cons_self _ _)
    obtain ⟨key, hk⟩ := Option.isSome_iff_exists.mp hk
    obtain ⟨value, hv⟩ := Option.isSome_iff_exists.mp hv
    have hrest := ih (fun t ht => htags t (List.mem_cons_of_mem _ ht))
    unfold visitTags
    simp only [hk, hv]
    by_cases hkey : key = risrStackName
    · have hval : value ≠ stackName := by
        intro h
        simp [isControlTag, hk, hv, hkey, h] at hc
      simp [hkey, hval, hrest]
    · simp [hkey, hrest]

/-- C8, as stated, fails: the group created for stack `api`, whose user tags
use the control-tag key with value `web`, is put on the deletion list of stack
`web` and deleted. -/
theorem dropOldASGs_other_stack_counterexample :
    webStack.Name ≠ apiStack.Name ∧
    apiStackGroup.Tags = describeTags (generateASGTags apiStack) ∧
    visitPages webStack.Name "web-7c9e66" [[apiStackGroup]] [] = .ok ["api-0f8fad"] ∧
    deleteCalls (dropOldASGs (tableProvider (.ok []) ([[apiStackGroup]], none) (.ok []) [])
      webStack.Name "web-7c9e66" World.start).2.trace = [⟨some "api-0f8fad", some true⟩] := by
  decide

/-- C8 amended: for stacks `S` and `S'` with different names, when the user
tags of `S'` do not map the control-tag key to `S.Name`, visiting a group whose
tag list is the one `generateASGTags` produces for `S'` leaves the deletion
list of `dropOldASGs S.Name newASG` unchanged. -/
theorem dropOldASGs_other_stack (S S' : Stack) (newASG : String) (g : Group)
    (forDeletion : List String) (hname : S.Name ≠ S'.Name)
    (huser : (risrStackName, S.Name) ∉ S'.Tags)
    (htags : g.Tags = describeTags (generateASGTags S')) :
    visitTags S.Name newASG g g.Tags forDeletion = .ok forDeletion ∧
    visitGroups S.Name newASG [g] forDeletion = .ok forDeletion := by
  have h : visitTags S.Name newASG g g.Tags forDeletion = .ok forDeletion := by
    apply visitTags_no_control
    intro t ht
    rw [htags] at ht
    simp only [describeTags, generateASGTags, List.map_append, List.map_map, List.map_cons,
      List.map_nil, List.mem_append, List.mem_map, List.mem_singleton, Function.comp] at ht
    rcases ht with ⟨kv, hkv, rfl⟩ | rfl
    · refine ⟨rfl, rfl, ?_⟩
      rw [Bool.eq_false_iff]
      intro hc
      simp only [isControlTag, Option.some.injEq, decide_eq_true_eq] at hc
      apply huser
      have : kv = (risrStackName, S.Name) := Prod.ext hc.1 hc.2
      rw [← this]
      exact hkv
    · refine ⟨rfl, rfl, ?_⟩
      rw [Bool.eq_false_iff]
      intro hc
      simp only [isControlTag, Option.some.injEq, decide_eq_true_eq, true_and] at hc
      exact hname hc.symm
  exact ⟨h, by simp [visitGroups, h]⟩

/-- C8 amended at a concrete run: the group of stack `web` seen by the reaper
of stack `api`. -/
theorem dropOldASGs_other_stack_witness :
    visitTags apiStack.Name "api-0f8fad" webStackGroup webStackGroup.Tags [] = .ok [] ∧
    visitGroups apiStack.Name "api-0f8fad" [webStackGroup] [] = .ok [] :=
  dropOldASGs_other_stack apiStack webStack "api-0f8fad" webStackGroup [] (by decide)
    (by decide) rfl

/-! ## Input builders -/

theorem generateCreateLCInput_fields (stack : Stack) (uuid : String) :
    (generateCreateLCInput stack uuid).ImageId = some stack.AMI ∧
    (generateCreateLCInput stack uuid).InstanceType = some stack.InstanceType ∧
    (generateCreateLCInput stack uuid).KeyName = stack.KeyName ∧
    (generateCreateLCInput stack uuid).IamInstanceProfile = stack.IamInstanceProfile ∧
    (generateCreateLCInput stack uuid).SecurityGroups = stack.SecurityGroupIDs ∧
    (generateCreateLCInput stack uuid).UserData = none :=
  ⟨rfl, rfl, rfl, rfl, rfl, rfl⟩

/-- C6 at the failing input: `webStack` carries user data, and the
launch-configuration request built for it carries none. -/
theorem generateCreateLCInput_drops_userData :
    webStack.UserData = some "#!/bin/sh" ∧
    (generateCreateLCInput webStack "0f8fad5b-d9cb-469f-a165-70867728950e").UserData = none ∧
    (generateCreateLCInput webStack "0f8fad5b-d9cb-469f-a165-70867728950e").UserData ≠
      webStack.UserData := by
  decide

/-- C7, as stated, fails: for `webStack`, which has no target group, the
target-group-ARN list of the request has length 1, not 0. -/
theorem generateCreateASGroupInput_targetGroupARNs_counterexample :
    webStack.TargetGroupARN = none ∧
    (generateCreateASGroupInput webStack "web-0f8fad"
      "7c9e6679-7425-40de-944b-e07fc1f90ae7").TargetGroupARNs = [none] ∧
    (generateCreateASGroupInput webStack "web-0f8fad"
      "7c9e6679-7425-40de-944b-e07fc1f90ae7").TargetGroupARNs.length ≠ 0 := by
  decide

/-- C7 amended: the target-group-ARN list of the request is always the
one-element list holding `stack.TargetGroupARN`, present or absent; its length
is 1 in both cases. -/
theorem generateCreateASGroupInput_targetGroupARNs (stack : Stack)
    (lauchConfigurationName uuid : String) :
    (generateCreateASGroupInput stack lauchConfigurationName uuid).TargetGroupARNs =
      [stack.TargetGroupARN] ∧
    (generateCreateASGroupInput stack lauchConfigurationName uuid).TargetGroupARNs.length = 1 :=
  ⟨rfl, rfl⟩

/-- C16: the tag list built by `generateASGTags`, which is the tag list of the
create-group request, holds exactly the tags `(key, value, true)` of the
entries of `stack.Tags` and the control tag `(risrStackName, stack.Name, true)`:
the control tag is always in it, every tag has propagate-at-launch `true`, and
its length is the number of user tags plus one. -/
theorem generateASGTags_spec (stack : Stack) (lauchConfigurationName uuid : String) :
    (generateCreateASGroupInput stack lauchConfigurationName uuid).Tags =
      generateASGTags stack ∧
    (∀ t, t ∈ generateASGTags stack ↔
      (∃ kv ∈ stack.Tags, t = ⟨some kv.1, some kv.2, some true⟩) ∨
        t = ⟨some risrStackName, some stack.Name, some true⟩) ∧
    (⟨some risrStackName, some stack.Name, some true⟩ : Tag) ∈ generateASGTags stack ∧
    (∀ t ∈ generateASGTags stack, t.PropagateAtLaunch = some true) ∧
    (generateASGTags stack).length = stack.Tags.length + 1 ∧
    (generateASGTags stack).map (fun t => (t.Key, t.Value)) =
      stack.Tags.map (fun kv => (some kv.1, some kv.2)) ++
        [(some risrStackName, some stack.Name)] := by
  have hmem : ∀ t, t ∈ generateASGTags stack ↔
      (∃ kv ∈ stack.Tags, t = ⟨some kv.1, some kv.2, some true⟩) ∨
        t = ⟨some risrStackName, some stack.Name, some true⟩ := by
    intro t
    simp only [generateASGTags, List.mem_append, List.mem_map, List.mem_singleton]
    constructor
    · rintro (⟨kv, hkv, rfl⟩ | h)
      · exact Or.inl ⟨kv, hkv, rfl⟩
      · exact Or.inr h
    · rintro (⟨kv, hkv, rfl⟩ | h)
      · exact Or.inl ⟨kv, hkv, rfl⟩
      · exact Or.inr h
  refine ⟨rfl, hmem, (hmem _).mpr (Or.inr rfl), ?_, ?_, ?_⟩
  · intro t ht
    rcases (hmem t).mp ht with ⟨kv, _, rfl⟩ | rfl <;> rfl
  · simp [generateASGTags]
  · simp [generateASGTags, Function.comp]

/-- C17: the create-group request has `MinSize`, `MaxSize` and
`DesiredCapacity` all equal to `stack.Replicas`. -/
theorem generateCreateASGroupInput_capacity (stack : Stack)
    (lauchConfigurationName uuid : String) :
    (generateCreateASGroupInput stack lauchConfigurationName uuid).MinSize =
      some stack.Replicas ∧
    (generateCreateASGroupInput stack lauchConfigurationName uuid).MaxSize =
      some stack.Replicas ∧
    (generateCreateASGroupInput stack lauchConfigurationName uuid).DesiredCapacity =
      some stack.Replicas :=
  ⟨rfl, rfl, rfl⟩

/-- C18: the health-check grace period of the create-group request is 60 when
`stack.HealthCheckGracePeriod` is absent and is the stack's value when it is
present, the value 0 included. -/
theorem generateCreateASGroupInput_gracePeriod (stack : Stack)
    (lauchConfigurationName uuid : String) :
    (generateCreateASGroupInput stack lauchConfigurationName uuid).HealthCheckGracePeriod =
      some (stack.HealthCheckGracePeriod.getD 60) ∧
    (generateCreateASGroupInput { stack with HealthCheckGracePeriod := none }
      lauchConfigurationName uuid).HealthCheckGracePeriod = some 60 ∧
    (∀ g : Int, (generateCreateASGroupInput { stack with HealthCheckGracePeriod := some g }
      lauchConfigurationName uuid).HealthCheckGracePeriod = some g) ∧
    (generateCreateASGroupInput { stack with HealthCheckGracePeriod := some 0 }
      lauchConfigurationName uuid).HealthCheckGracePeriod = some 0 := by
  refine ⟨?_, rfl, fun _ => rfl, rfl⟩
  cases h : stack.HealthCheckGracePeriod <;> simp [generateCreateASGroupInput, h]

/-! ## Strategy selection -/

theorem getASGHealth_trace {σ : Type} (p : Provider σ) (asgName : String) (w : World σ) :
    (getASGHealth p asgName w).2 =
      ⟨(p.DescribeAutoScalingGroups w.state [asgName]).2,
        w.trace ++ [⟨.DescribeAutoScalingGroups [asgName],
          errOf (p.DescribeAutoScalingGroups w.state [asgName]).1⟩]⟩ := by
  unfold getASGHealth
  simp only
  split <;> rfl

theorem isASGHealthy_eq {σ : Type} (p : Provider σ) (stack : Stack) (asgName : String)
    (w : World σ) :
    isASGHealthy p stack asgName w =
      match stack.TargetGroupARN with
      | some targetGroupARN => getTargetsHealth p asgName targetGroupARN w
      | none => getASGHealth p asgName w := by
  unfold isASGHealthy
  cases stack.TargetGroupARN with
  | some arn =>
    simp only
    cases h : (getTargetsHealth p asgName arn w).1 <;> exact Prod.ext h.symm rfl
  | none =>
    simp only
    cases h : (getASGHealth p asgName w).1 <;> exact Prod.ext h.symm rfl

/-- C15: `isASGHealthy` is the run (result and calls) of `getTargetsHealth` with
the stack's ARN when the ARN is present and the run of `getASGHealth` when it
is absent; the only call of `getASGHealth` is the describe of the group, so no
target-health lookup is issued when the ARN is absent. -/
theorem isASGHealthy_strategy {σ : Type} (p : Provider σ) (stack : Stack) (asgName : String)
    (w : World σ) :
    (isASGHealthy p stack asgName w =
      match stack.TargetGroupARN with
      | some targetGroupARN => getTargetsHealth p asgName targetGroupARN w
      | none => getASGHealth p asgName w) ∧
    (getASGHealth p asgName w).2.trace =
      w.trace ++ [⟨.DescribeAutoScalingGroups [asgName],
        errOf (p.DescribeAutoScalingGroups w.state [asgName]).1⟩] ∧
    (⟨.DescribeAutoScalingGroups [asgName],
      errOf (p.DescribeAutoScalingGroups w.state [asgName]).1⟩ : Event).isTargetHealth =
      false := by
  refine ⟨isASGHealthy_eq p stack asgName w, ?_, rfl⟩
  rw [getASGHealth_trace]

/-! ## The deployment controller -/

theorem DeployStack_eq {σ : Type} (p : Provider σ) (stack : Stack) (uuidLC uuidASG : String)
    (fuel : Nat) (w : World σ) :
    DeployStack p stack uuidLC uuidASG fuel w =
      match (p.CreateLaunchConfiguration w.state (generateCreateLCInput stack uuidLC)).1 with
      | some e =>
        some (.error e,
          ⟨(p.CreateLaunchConfiguration w.state (generateCreateLCInput stack uuidLC)).2,
            w.trace ++ [createLCEvent stack uuidLC (some e)]⟩)
      | none =>
        match (p.CreateAutoScalingGroup
          (p.CreateLaunchConfiguration w.state (generateCreateLCInput stack uuidLC)).2
          (generateCreateASGroupInput stack (lcNameOf stack uuidLC) uuidASG)).1 with
        | some e =>
          some (.error e,
            ⟨(afterCreates p stack uuidLC uuidASG w).state,
              w.trace ++ [createLCEvent stack uuidLC none,
                createASGEvent stack uuidLC uuidASG (some e)]⟩)
        | none =>
          pollLoop p stack (asgNameOf stack uuidASG) fuel
            (afterCreates p stack uuidLC uuidASG w) := by
  cases h1 : (p.CreateLaunchConfiguration w.state (generateCreateLCInput stack uuidLC)).1 with
  | some e =>
    simp only [DeployStack]
    simp [generateCreateLCInput] at h1 ⊢
    simp [h1, createLCEvent, generateCreateLCInput]
  | none =>
    cases h2 : (p.CreateAutoScalingGroup
        (p.CreateLaunchConfiguration w.state (generateCreateLCInput stack uuidLC)).2
        (generateCreateASGroupInput stack (lcNameOf stack uuidLC) uuidASG)).1 with
    | some e =>
      simp only [DeployStack]
      simp [generateCreateLCInput, generateCreateASGroupInput, lcNameOf] at h1 h2 ⊢
      simp [h1, h2, createLCEvent, createASGEvent, afterCreates, generateCreateLCInput,
        generateCreateASGroupInput, lcNameOf]
    | none =>
      simp only [DeployStack]
      simp [generateCreateLCInput, generateCreateASGroupInput, lcNameOf] at h1 h2 ⊢
      simp [h1, h2, createLCEvent, createASGEvent, afterCreates, generateCreateLCInput,
        generateCreateASGroupInput, lcNameOf, asgNameOf]

/-- C13: when `CreateLaunchConfiguration` returns an error, `DeployStack`
returns that error and that call is the only one issued; when it succeeds and
`CreateAutoScalingGroup` returns an error, `DeployStack` returns that error and
the two create calls are the only ones issued. -/
theorem DeployStack_create_failure {σ : Type} (p : Provider σ) (stack : Stack)
    (uuidLC uuidASG : String) (fuel : Nat) (w : World σ) :
    (∀ e, (p.CreateLaunchConfiguration w.state (generateCreateLCInput stack uuidLC)).1 = some e →
      DeployStack p stack uuidLC uuidASG fuel w =
        some (.error e,
          ⟨(p.CreateLaunchConfiguration w.state (generateCreateLCInput stack uuidLC)).2,
            w.trace ++ [createLCEvent stack uuidLC (some e)]⟩)) ∧
    (∀ e, (p.CreateLaunchConfiguration w.state (generateCreateLCInput stack uuidLC)).1 = none →
      (p.CreateAutoScalingGroup
        (p.CreateLaunchConfiguration w.state (generateCreateLCInput stack uuidLC)).2
        (generateCreateASGroupInput stack (lcNameOf stack uuidLC) uuidASG)).1 = some e →
      DeployStack p stack uuidLC uuidASG fuel w =
        some (.error e,
          ⟨(afterCreates p stack uuidLC uuidASG w).state,
            w.trace ++ [createLCEvent stack uuidLC none,
              createASGEvent stack uuidLC uuidASG (some e)]⟩)) := by
  constructor
  · intro e h1
    rw [DeployStack_eq, h1]
  · intro e h1 h2
    rw [DeployStack_eq, h1]
    simp only
    rw [h2]

/-- C13 at concrete runs: an `AlreadyExists` on either create call. -/
theorem DeployStack_create_failure_witness :
    DeployStack (warmingProvider (some (.provider "AlreadyExists")) none 0 ([], none))
        webStack "0f8fad5b-d9cb" "7c9e6679-7425" 5 ⟨0, []⟩ =
      some (.error (.provider "AlreadyExists"),
        ⟨0, [createLCEvent webStack "0f8fad5b-d9cb" (some (.provider "AlreadyExists"))]⟩) ∧
    DeployStack (warmingProvider none (some (.provider "AlreadyExists")) 0 ([], none))
        webStack "0f8fad5b-d9cb" "7c9e6679-7425" 5 ⟨0, []⟩ =
      some (.error (.provider "AlreadyExists"),
        ⟨0, [createLCEvent webStack "0f8fad5b-d9cb" none,
          createASGEvent webStack "0f8fad5b-d9cb" "7c9e6679-7425"
            (some (.provider "AlreadyExists"))]⟩) :=
  ⟨(DeployStack_create_failure
      (warmingProvider (some (.provider "AlreadyExists")) none 0 ([], none))
      webStack "0f8fad5b-d9cb" "7c9e6679-7425" 5 ⟨0, []⟩).1 _ rfl,
    (DeployStack_create_failure
      (warmingProvider none (some (.provider "AlreadyExists")) 0 ([], none))
      webStack "0f8fad5b-d9cb" "7c9e6679-7425" 5 ⟨0, []⟩).2 _ rfl rfl⟩

theorem getTargetsHealth_not_found {σ : Type} (p : Provider σ) (asgName arn : String)
    (w : World σ) (s1 : σ)
    (hdescribe : p.DescribeAutoScalingGroups w.state [asgName] = (.ok [], s1)) :
    getTargetsHealth p asgName arn w =
      (.error (notFound asgName),
        ⟨s1, w.trace ++ [⟨.DescribeAutoScalingGroups [asgName], none⟩]⟩) := by
  simp [getTargetsHealth, hdescribe, notFound, errOf]

theorem getASGHealth_not_found {σ : Type} (p : Provider σ) (asgName : String)
    (w : World σ) (s1 : σ)
    (hdescribe : p.DescribeAutoScalingGroups w.state [asgName] = (.ok [], s1)) :
    getASGHealth p asgName w =
      (.error (notFound asgName),
        ⟨s1, w.trace ++ [⟨.DescribeAutoScalingGroups [asgName], none⟩]⟩) := by
  simp [getASGHealth, hdescribe, notFound, errOf]

theorem pollLoop_error {σ : Type} (p : Provider σ) (stack : Stack) (asgName : String)
    (fuel : Nat) (w : World σ) (e : Error)
    (h : (isASGHealthy p stack asgName w).1 = .error e) :
    pollLoop p stack asgName (fuel + 1) w = some (.error e, (isASGHealthy p stack asgName w).2) := by
  simp [pollLoop, h]

/-- C14: when the describe of `asgName` succeeds with zero groups, both
strategies, and so `isASGHealthy` for every stack, return the
`AutoScalingGroupNotFoundError` after that single call (the target-group
strategy issues no target-health lookup); the poll loop of `DeployStack`
returns it at once, and `DeployStack` itself, when this happens at the first
evaluation after its two create calls, returns it without any sleep or further
evaluation. -/
theorem isASGHealthy_group_not_found {σ : Type} (p : Provider σ) (stack : Stack)
    (asgName : String) (w : World σ) (s1 : σ)
    (hdescribe : p.DescribeAutoScalingGroups w.state [asgName] = (.ok [], s1)) :
    (∀ arn, getTargetsHealth p asgName arn w =
      (.error (notFound asgName),
        ⟨s1, w.trace ++ [⟨.DescribeAutoScalingGroups [asgName], none⟩]⟩)) ∧
    getASGHealth p asgName w =
      (.error (notFound asgName),
        ⟨s1, w.trace ++ [⟨.DescribeAutoScalingGroups [asgName], none⟩]⟩) ∧
    isASGHealthy p stack asgName w =
      (.error (notFound asgName),
        ⟨s1, w.trace ++ [⟨.DescribeAutoScalingGroups [asgName], none⟩]⟩) ∧
    (∀ fuel, pollLoop p stack asgName (fuel + 1) w =
      some (.error (notFound asgName),
        ⟨s1, w.trace ++ [⟨.DescribeAutoScalingGroups [asgName], none⟩]⟩)) ∧
    (∀ (w0 : World σ) (uuidLC uuidASG : String) (fuel : Nat),
      (p.CreateLaunchConfiguration w0.state (generateCreateLCInput stack uuidLC)).1 = none →
      (p.CreateAutoScalingGroup
        (p.CreateLaunchConfiguration w0.state (generateCreateLCInput stack uuidLC)).2
        (generateCreateASGroupInput stack (lcNameOf stack uuidLC) uuidASG)).1 = none →
      afterCreates p stack uuidLC uuidASG w0 = w → asgNameOf stack uuidASG = asgName →
      DeployStack p stack uuidLC uuidASG (fuel + 1) w0 =
        some (.error (notFound asgName),
          ⟨s1, w0.trace ++ [createLCEvent stack uuidLC none,
            createASGEvent stack uuidLC uuidASG none,
            ⟨.DescribeAutoScalingGroups [asgName], none⟩]⟩)) := by
  have h1 := getTargetsHealth_not_found p asgName
  have h2 := getASGHealth_not_found p asgName w s1 hdescribe
  have h3 : isASGHealthy p stack asgName w =
      (.error (notFound asgName),
        ⟨s1, w.trace ++ [⟨.DescribeAutoScalingGroups [asgName], none⟩]⟩) := by
    rw [isASGHealthy_eq]
    cases stack.TargetGroupARN with
    | some arn => exact h1 arn w s1 hdescribe
    | none => exact h2
  have h4 : ∀ fuel, pollLoop p stack asgName (fuel + 1) w =
      some (.error (notFound asgName),
        ⟨s1, w.trace ++ [⟨.DescribeAutoScalingGroups [asgName], none⟩]⟩) := by
    intro fuel
    rw [pollLoop_error p stack asgName fuel w (notFound asgName) (by rw [h3]), h3]
  refine ⟨fun arn => h1 arn w s1 hdescribe, h2, h3, h4, ?_⟩
  intro w0 uuidLC uuidASG fuel hlc hasg hw hname
  rw [DeployStack_eq, hlc]
  simp only
  rw [hasg]
  simp only
  rw [hw, hname, h4 fuel, ← hw]
  simp [afterCreates, hlc, hasg]

/-- C14 at a concrete run: the describe of the new group of `webStack` yields
no group. -/
theorem isASGHealthy_group_not_found_witness :
    isASGHealthy (tableProvider (.ok []) ([], none) (.ok []) []) apiStack "web-7c9e66"
        (afterCreates (tableProvider (.ok []) ([], none) (.ok []) []) webStack
          "0f8fad5b-d9cb" "7c9e6679-7425" World.start) =
      (.error (notFound "web-7c9e66"),
        ⟨(), [createLCEvent webStack "0f8fad5b-d9cb" none,
          createASGEvent webStack "0f8fad5b-d9cb" "7c9e6679-7425" none,
          ⟨.DescribeAutoScalingGroups ["web-7c9e66"], none⟩]⟩) ∧
    DeployStack (tableProvider (.ok []) ([], none) (.ok []) []) webStack
        "0f8fad5b-d9cb" "7c9e6679-7425" 3 World.start =
      some (.error (notFound "web-7c9e66"),
        ⟨(), [createLCEvent webStack "0f8fad5b-d9cb" none,
          createASGEvent webStack "0f8fad5b-d9cb" "7c9e6679-7425" none,
          ⟨.DescribeAutoScalingGroups ["web-7c9e66"], none⟩]⟩) :=
  ⟨(isASGHealthy_group_not_found (tableProvider (.ok []) ([], none) (.ok []) []) apiStack
      "web-7c9e66" (afterCreates (tableProvider (.ok []) ([], none) (.ok []) []) webStack
          "0f8fad5b-d9cb" "7c9e6679-7425" World.start) () rfl).2.2.1,
    (isASGHealthy_group_not_found (tableProvider (.ok []) ([], none) (.ok []) []) webStack
      "web-7c9e66" (afterCreates (tableProvider (.ok []) ([], none) (.ok []) []) webStack
          "0f8fad5b-d9cb" "7c9e6679-7425" World.start) () rfl).2.2.2.2 World.start
      "0f8fad5b-d9cb" "7c9e6679-7425" 2 rfl rfl rfl (by decide)⟩

theorem getTargetsHealth_events {σ : Type} (p : Provider σ) (asgName arn : String)
    (w : World σ) :
    ∃ evs, (getTargetsHealth p asgName arn w).2.trace = w.trace ++ evs ∧
      (∀ ev ∈ evs, ev.isHealthQuery = true) ∧
      evs.countP (Event.isEvaluation asgName) = 1 := by
  have hone : ∀ e : Option Error,
      (∀ ev ∈ [(⟨.DescribeAutoScalingGroups [asgName], e⟩ : Event)], ev.isHealthQuery = true) ∧
      [(⟨.DescribeAutoScalingGroups [asgName], e⟩ : Event)].countP
        (Event.isEvaluation asgName) = 1 := by
    intro e
    simp [Event.isHealthQuery, Event.isEvaluation]
  have htwo : ∀ e1 e2 : Option Error,
      (∀ ev ∈ [(⟨.DescribeAutoScalingGroups [asgName], e1⟩ : Event),
        ⟨.DescribeTargetHealth arn, e2⟩], ev.isHealthQuery = true) ∧
      [(⟨.DescribeAutoScalingGroups [asgName], e1⟩ : Event),
        ⟨.DescribeTargetHealth arn, e2⟩].countP (Event.isEvaluation asgName) = 1 := by
    intro e1 e2
    simp [Event.isHealthQuery, Event.isEvaluation, List.countP_cons]
  unfold getTargetsHealth
  simp only
  split
  · exact ⟨_, rfl, hone _⟩
  · exact ⟨_, rfl, hone _⟩
  · split
    · exact ⟨_, List.append_assoc _ _ _, htwo _ _⟩
    · exact ⟨_, List.append_assoc _ _ _, htwo _ _⟩

theorem isASGHealthy_events {σ : Type} (p : Provider σ) (stack : Stack) (asgName : String)
    (w : World σ) :
    ∃ evs, (isASGHealthy p stack asgName w).2.trace = w.trace ++ evs ∧
      (∀ ev ∈ evs, ev.isHealthQuery = true) ∧
      evs.countP (Event.isEvaluation asgName) = 1 := by
  rw [isASGHealthy_eq]
  cases stack.TargetGroupARN with
  | some arn => exact getTargetsHealth_events p asgName arn w
  | none =>
    refine ⟨[_], by rw [getASGHealth_trace], by simp [Event.isHealthQuery],
      by simp [Event.isEvaluation]⟩

theorem isHealthQuery_not_sleep (ev : Event) (h : ev.isHealthQuery = true) :
    ev.isSleep = false := by
  obtain ⟨c, e⟩ := ev
  cases c <;> simp_all [Event.isHealthQuery, Event.isSleep]

theorem countP_eq_zero_of_health (evs : List Event)
    (h : ∀ ev ∈ evs, ev.isHealthQuery = true) : evs.countP Event.isSleep = 0 := by
  rw [List.countP_eq_zero]
  intro ev hev
  rw [isHealthQuery_not_sleep ev (h ev hev)]
  simp

theorem pollWorld_events {σ : Type} (p : Provider σ) (stack : Stack) (asgName : String)
    (k : Nat) (w : World σ) :
    ∃ evs, (pollWorld p stack asgName k w).trace = w.trace ++ evs ∧
      (∀ ev ∈ evs, ev.isHealthQuery = true ∨ ev.isSleep = true) ∧
      evs.countP (Event.isEvaluation asgName) = k ∧
      evs.countP Event.isSleep = k := by
  induction k generalizing w with
  | zero => exact ⟨[], by simp [pollWorld], by simp, rfl, rfl⟩
  | succ k ih =>
    obtain ⟨evs1, h1, h2, h3⟩ := isASGHealthy_events p stack asgName w
    obtain ⟨evs2, g1, g2, g3, g4⟩ := ih
      ⟨(isASGHealthy p stack asgName w).2.state,
        (isASGHealthy p stack asgName w).2.trace ++ [⟨.Sleep 10, none⟩]⟩
    refine ⟨evs1 ++ [⟨.Sleep 10, none⟩] ++ evs2, ?_, ?_, ?_, ?_⟩
    · rw [pollWorld, g1, h1]
      simp
    · intro ev hev
      simp only [List.mem_append, List.mem_singleton] at hev
      rcases hev with (hev | hev) | hev
      · exact Or.inl (h2 ev hev)
      · subst hev
        exact Or.inr (by simp [Event.isSleep])
      · exact g2 ev hev
    · rw [List.countP_append, List.countP_append, h3, g3]
      simp [Event.isEvaluation]
      omega
    · rw [List.countP_append, List.countP_append, g4, countP_eq_zero_of_health evs1 h2]
      simp [Event.isSleep]
      omega

theorem pollLoop_unhealthy {σ : Type} (p : Provider σ) (stack : Stack) (asgName : String)
    (k fuel : Nat) (w : World σ)
    (hun : ∀ i < k, (isASGHealthy p stack asgName (pollWorld p stack asgName i w)).1 =
      .ok false) :
    pollLoop p stack asgName (k + fuel) w =
      pollLoop p stack asgName fuel (pollWorld p stack asgName k w) := by
  induction k generalizing w with
  | zero => simp [pollWorld]
  | succ k ih =>
    have h0 : (isASGHealthy p stack asgName w).1 = .ok false := hun 0 (Nat.succ_pos k)
    have hstep : pollLoop p stack asgName (k + fuel + 1) w =
        pollLoop p stack asgName (k + fuel)
          ⟨(isASGHealthy p stack asgName w).2.state,
            (isASGHealthy p stack asgName w).2.trace ++ [⟨.Sleep 10, none⟩]⟩ := by
      simp [pollLoop, h0]
    rw [show k + 1 + fuel = k + fuel + 1 by omega, hstep, pollWorld]
    exact ih _ (fun i hi => hun (i + 1) (Nat.succ_lt_succ hi))

theorem pollLoop_healthy {σ : Type} (p : Provider σ) (stack : Stack) (asgName : String)
    (fuel : Nat) (w : World σ)
    (h : (isASGHealthy p stack asgName w).1 = .ok true) :
    pollLoop p stack asgName (fuel + 1) w =
      some (dropOldASGs p stack.Name asgName (isASGHealthy p stack asgName w).2) := by
  simp only [pollLoop, h]
  cases hd : (dropOldASGs p stack.Name asgName (isASGHealthy p stack asgName w).2).1 <;>
    exact congrArg some (Prod.ext hd.symm rfl)

theorem pollLoop_success {σ : Type} (p : Provider σ) (stack : Stack) (asgName : String)
    (fuel : Nat) (w w' : World σ)
    (h : pollLoop p stack asgName fuel w = some (.ok (), w')) :
    ∃ k, (isASGHealthy p stack asgName (pollWorld p stack asgName k w)).1 = .ok true ∧
      dropOldASGs p stack.Name asgName
        (isASGHealthy p stack asgName (pollWorld p stack asgName k w)).2 = (.ok (), w') := by
  induction fuel generalizing w with
  | zero => simp [pollLoop] at h
  | succ fuel ih =>
    cases hr : (isASGHealthy p stack asgName w).1 with
    | error e => simp [pollLoop, hr] at h
    | panic => simp [pollLoop, hr] at h
    | ok b =>
      cases b with
      | true =>
        rw [pollLoop_healthy p stack asgName fuel w hr] at h
        exact ⟨0, hr, Option.some.inj h⟩
      | false =>
        have hstep : pollLoop p stack asgName (fuel + 1) w =
            pollLoop p stack asgName fuel
              ⟨(isASGHealthy p stack asgName w).2.state,
                (isASGHealthy p stack asgName w).2.trace ++ [⟨.Sleep 10, none⟩]⟩ := by
          simp [pollLoop, hr]
        rw [hstep] at h
        obtain ⟨k, hk1, hk2⟩ := ih _ h
        exact ⟨k + 1, hk1, hk2⟩

theorem dropOldASGs_ok_trace {σ : Type} (p : Provider σ) (stackName newASG : String)
    (w : World σ) (h : (dropOldASGs p stackName newASG w).1 = .ok ()) :
    ∃ dels : List String, (dropOldASGs p stackName newASG w).2.trace =
      w.trace ++ ⟨.DescribeAutoScalingGroupsPages, none⟩ ::
        dels.map (fun n => deleteEvent n none) := by
  rcases henum : p.DescribeAutoScalingGroupsPages w.state with ⟨⟨pages, err⟩, s1⟩
  cases hv : visitPages stackName newASG pages [] with
  | ok dels =>
    have heq := dropOldASGs_of_ok p w stackName newASG pages err s1 dels henum hv
    cases err with
    | some e =>
      rw [heq] at h
      simp at h
    | none =>
      simp only at heq
      rw [heq] at h ⊢
      rcases deleteLoop_spec p dels ⟨s1, w.trace ++ [⟨.DescribeAutoScalingGroupsPages, none⟩]⟩
        with ⟨_, h2⟩ | ⟨pre, n, post, e, s, _, h2, _, _⟩
      · exact ⟨dels, by rw [h2]; simp⟩
      · rw [h2] at h
        simp at h
  | error e =>
    exact absurd h (dropOldASGs_of_not_ok p w stackName newASG pages err s1 henum
      (by intro l; rw [hv]; simp)).1
  | panic =>
    exact absurd h (dropOldASGs_of_not_ok p w stackName newASG pages err s1 henum
      (by intro l; rw [hv]; simp)).1

theorem afterCreates_trace {σ : Type} (p : Provider σ) (stack : Stack)
    (uuidLC uuidASG : String) (w : World σ)
    (hlc : (p.CreateLaunchConfiguration w.state (generateCreateLCInput stack uuidLC)).1 = none)
    (hasg : (p.CreateAutoScalingGroup
      (p.CreateLaunchConfiguration w.state (generateCreateLCInput stack uuidLC)).2
      (generateCreateASGroupInput stack (lcNameOf stack uuidLC) uuidASG)).1 = none) :
    (afterCreates p stack uuidLC uuidASG w).trace =
      w.trace ++ [createLCEvent stack uuidLC none, createASGEvent stack uuidLC uuidASG none] := by
  simp [afterCreates, hlc, hasg]

/-- C11: in every run of `DeployStack` that returns success, the calls issued
are, in this order: the `CreateLaunchConfiguration` call, the
`CreateAutoScalingGroup` call, a block `health` made only of health queries and
sleeps, the enumeration, and forced deletes. The block `health` ends with an
evaluation that returned healthy, so every delete comes after all health
queries and after a healthy evaluation. -/
theorem DeployStack_success_order {σ : Type} (p : Provider σ) (stack : Stack)
    (uuidLC uuidASG : String) (fuel : Nat) (w w' : World σ)
    (h : DeployStack p stack uuidLC uuidASG fuel w = some (.ok (), w')) :
    ∃ (health : List Event) (dels : List String) (wk : World σ),
      w'.trace =
        w.trace ++ [createLCEvent stack uuidLC none, createASGEvent stack uuidLC uuidASG none]
          ++ health ++ ⟨.DescribeAutoScalingGroupsPages, none⟩ ::
            dels.map (fun n => deleteEvent n none) ∧
      (∀ ev ∈ health, ev.isHealthQuery = true ∨ ev.isSleep = true) ∧
      (isASGHealthy p stack (asgNameOf stack uuidASG) wk).1 = .ok true ∧
      (isASGHealthy p stack (asgNameOf stack uuidASG) wk).2.trace =
        w.trace ++ [createLCEvent stack uuidLC none, createASGEvent stack uuidLC uuidASG none]
          ++ health := by
  rw [DeployStack_eq] at h
  cases hlc : (p.CreateLaunchConfiguration w.state (generateCreateLCInput stack uuidLC)).1 with
  | some e =>
    rw [hlc] at h
    simp at h
  | none =>
    rw [hlc] at h
    simp only at h
    cases hasg : (p.CreateAutoScalingGroup
        (p.CreateLaunchConfiguration w.state (generateCreateLCInput stack uuidLC)).2
        (generateCreateASGroupInput stack (lcNameOf stack uuidLC) uuidASG)).1 with
    | some e =>
      rw [hasg] at h
      simp at h
    | none =>
      rw [hasg] at h
      simp only at h
      obtain ⟨k, hk1, hk2⟩ := pollLoop_success p stack (asgNameOf stack uuidASG) fuel _ w' h
      obtain ⟨evs1, a1, a2, _, _⟩ := pollWorld_events p stack (asgNameOf stack uuidASG) k
        (afterCreates p stack uuidLC uuidASG w)
      obtain ⟨evs2, b1, b2, _⟩ := isASGHealthy_events p stack (asgNameOf stack uuidASG)
        (pollWorld p stack (asgNameOf stack uuidASG) k (afterCreates p stack uuidLC uuidASG w))
      obtain ⟨dels, hd⟩ := dropOldASGs_ok_trace p stack.Name (asgNameOf stack uuidASG)
        (isASGHealthy p stack (asgNameOf stack uuidASG)
          (pollWorld p stack (asgNameOf stack uuidASG) k
            (afterCreates p stack uuidLC uuidASG w))).2 (by rw [hk2])
      have htr : (isASGHealthy p stack (asgNameOf stack uuidASG)
          (pollWorld p stack (asgNameOf stack uuidASG) k
            (afterCreates p stack uuidLC uuidASG w))).2.trace =
          w.trace ++ [createLCEvent stack uuidLC none,
            createASGEvent stack uuidLC uuidASG none] ++ (evs1 ++ evs2) := by
        rw [b1, a1, afterCreates_trace p stack uuidLC uuidASG w hlc hasg]
        simp
      refine ⟨evs1 ++ evs2, dels, _, ?_, ?_, hk1, htr⟩
      · rw [hk2] at hd
        rw [hd, htr]
      · intro ev hev
        rcases List.mem_append.mp hev with hev | hev
        · exact a2 ev hev
        · exact Or.inl (b2 ev hev)

/-- C11 at a concrete run: the deployment of `webStack` against `warmProvider`
succeeds with the calls of `warmTrace`. -/
theorem DeployStack_success_order_witness :
    DeployStack warmProvider webStack "0f8fad5b-d9cb" "7c9e6679-7425" 5 ⟨0, []⟩ =
      some (.ok (), ⟨3, warmTrace⟩) ∧
    ∃ (health : List Event) (dels : List String) (wk : World Nat),
      warmTrace =
        [] ++ [createLCEvent webStack "0f8fad5b-d9cb" none,
          createASGEvent webStack "0f8fad5b-d9cb" "7c9e6679-7425" none]
          ++ health ++ ⟨.DescribeAutoScalingGroupsPages, none⟩ ::
            dels.map (fun n => deleteEvent n none) ∧
      (∀ ev ∈ health, ev.isHealthQuery = true ∨ ev.isSleep = true) ∧
      (isASGHealthy warmProvider webStack (asgNameOf webStack "7c9e6679-7425") wk).1 =
        .ok true ∧
      (isASGHealthy warmProvider webStack (asgNameOf webStack "7c9e6679-7425") wk).2.trace =
        [] ++ [createLCEvent webStack "0f8fad5b-d9cb" none,
          createASGEvent webStack "0f8fad5b-d9cb" "7c9e6679-7425" none] ++ health :=
  ⟨rfl, DeployStack_success_order warmProvider webStack "0f8fad5b-d9cb" "7c9e6679-7425" 5
    ⟨0, []⟩ ⟨3, warmTrace⟩ rfl⟩

/-- C12: when both create calls succeed and the first `k` evaluations of the
poll loop return not healthy, then with room for more than `k` evaluations:
up to and including evaluation `k + 1` the loop issues only health queries and
sleeps, with exactly `k + 1` evaluations and exactly `k` sleeps of 10 seconds;
if evaluation `k + 1` returns healthy, the rest of `DeployStack` is one run of
`dropOldASGs` with `stack.Name` and the created group's name, whose result is
returned; if it returns an error, `DeployStack` returns that error with no
further call. -/
theorem DeployStack_poll {σ : Type} (p : Provider σ) (stack : Stack)
    (uuidLC uuidASG : String) (k fuel : Nat) (w : World σ)
    (hlc : (p.CreateLaunchConfiguration w.state (generateCreateLCInput stack uuidLC)).1 = none)
    (hasg : (p.CreateAutoScalingGroup
      (p.CreateLaunchConfiguration w.state (generateCreateLCInput stack uuidLC)).2
      (generateCreateASGroupInput stack (lcNameOf stack uuidLC) uuidASG)).1 = none)
    (hun : ∀ i < k, (isASGHealthy p stack (asgNameOf stack uuidASG)
      (pollWorld p stack (asgNameOf stack uuidASG) i
        (afterCreates p stack uuidLC uuidASG w))).1 = .ok false)
    (hfuel : k < fuel) :
    (generateCreateASGroupInput stack (lcNameOf stack uuidLC) uuidASG).AutoScalingGroupName =
      some (asgNameOf stack uuidASG) ∧
    (∃ evs, (isASGHealthy p stack (asgNameOf stack uuidASG)
        (pollWorld p stack (asgNameOf stack uuidASG) k
          (afterCreates p stack uuidLC uuidASG w))).2.trace =
          (afterCreates p stack uuidLC uuidASG w).trace ++ evs ∧
      (∀ ev ∈ evs, ev.isHealthQuery = true ∨ ev.isSleep = true) ∧
      evs.countP (Event.isEvaluation (asgNameOf stack uuidASG)) = k + 1 ∧
      evs.countP Event.isSleep = k) ∧
    ((isASGHealthy p stack (asgNameOf stack uuidASG)
        (pollWorld p stack (asgNameOf stack uuidASG) k
          (afterCreates p stack uuidLC uuidASG w))).1 = .ok true →
      DeployStack p stack uuidLC uuidASG fuel w =
        some (dropOldASGs p stack.Name (asgNameOf stack uuidASG)
          (isASGHealthy p stack (asgNameOf stack uuidASG)
            (pollWorld p stack (asgNameOf stack uuidASG) k
              (afterCreates p stack uuidLC uuidASG w))).2)) ∧
    (∀ e, (isASGHealthy p stack (asgNameOf stack uuidASG)
        (pollWorld p stack (asgNameOf stack uuidASG) k
          (afterCreates p stack uuidLC uuidASG w))).1 = .error e →
      DeployStack p stack uuidLC uuidASG fuel w =
        some (.error e, (isASGHealthy p stack (asgNameOf stack uuidASG)
          (pollWorld p stack (asgNameOf stack uuidASG) k
            (afterCreates p stack uuidLC uuidASG w))).2)) := by
  obtain ⟨m, rfl⟩ : ∃ m, fuel = k + (m + 1) := ⟨fuel - k - 1, by omega⟩
  have hrun : DeployStack p stack uuidLC uuidASG (k + (m + 1)) w =
      pollLoop p stack (asgNameOf stack uuidASG) (m + 1)
        (pollWorld p stack (asgNameOf stack uuidASG) k
          (afterCreates p stack uuidLC uuidASG w)) := by
    rw [DeployStack_eq, hlc]
    simp only
    rw [hasg]
    simp only
    exact pollLoop_unhealthy p stack (asgNameOf stack uuidASG) k (m + 1) _ hun
  refine ⟨rfl, ?_, ?_, ?_⟩
  · obtain ⟨evs1, a1, a2, a3, a4⟩ := pollWorld_events p stack (asgNameOf stack uuidASG) k
      (afterCreates p stack uuidLC uuidASG w)
    obtain ⟨evs2, b1, b2, b3⟩ := isASGHealthy_events p stack (asgNameOf stack uuidASG)
      (pollWorld p stack (asgNameOf stack uuidASG) k (afterCreates p stack uuidLC uuidASG w))
    refine ⟨evs1 ++ evs2, by rw [b1, a1, List.append_assoc], ?_, ?_, ?_⟩
    · intro ev hev
      rcases List.mem_append.mp hev with hev | hev
      · exact a2 ev hev
      · exact Or.inl (b2 ev hev)
    · rw [List.countP_append, a3, b3]
    · rw [List.countP_append, a4, countP_eq_zero_of_health evs2 b2]
      rfl
  · intro hk
    rw [hrun, pollLoop_healthy p stack (asgNameOf stack uuidASG) m _ hk]
  · intro e hk
    rw [hrun, pollLoop_error p stack (asgNameOf stack uuidASG) m _ e hk]

/-- C12 at a concrete run: two unhealthy evaluations, then a healthy one, then
the reaper. -/
theorem DeployStack_poll_witness :
    (∃ evs, (isASGHealthy warmProvider webStack (asgNameOf webStack "7c9e6679-7425")
        (pollWorld warmProvider webStack (asgNameOf webStack "7c9e6679-7425") 2
          (afterCreates warmProvider webStack "0f8fad5b-d9cb" "7c9e6679-7425"
            ⟨0, []⟩))).2.trace =
          (afterCreates warmProvider webStack "0f8fad5b-d9cb" "7c9e6679-7425"
            ⟨0, []⟩).trace ++ evs ∧
      (∀ ev ∈ evs, ev.isHealthQuery = true ∨ ev.isSleep = true) ∧
      evs.countP (Event.isEvaluation (asgNameOf webStack "7c9e6679-7425")) = 2 + 1 ∧
      evs.countP Event.isSleep = 2) ∧
    DeployStack warmProvider webStack "0f8fad5b-d9cb" "7c9e6679-7425" 5 ⟨0, []⟩ =
      some (dropOldASGs warmProvider webStack.Name (asgNameOf webStack "7c9e6679-7425")
        (isASGHealthy warmProvider webStack (asgNameOf webStack "7c9e6679-7425")
          (pollWorld warmProvider webStack (asgNameOf webStack "7c9e6679-7425") 2
            (afterCreates warmProvider webStack "0f8fad5b-d9cb" "7c9e6679-7425"
              ⟨0, []⟩))).2) :=
  have h := DeployStack_poll warmProvider webStack "0f8fad5b-d9cb" "7c9e6679-7425" 2 5
    ⟨0, []⟩ rfl rfl (by decide) (by decide)
  ⟨h.2.1, h.2.2.1 (by decide)⟩

/-! ## Reaping twice -/

theorem visitTags_ok_any (stackName newASG : String) (asg : Group)
    (tags : List TagDescription) (acc acc' l : List String)
    (h : visitTags stackName newASG asg tags acc = .ok l) :
    ∃ l', visitTags stackName newASG asg tags acc' = .ok l' := by
  induction tags generalizing acc acc' with
  | nil => exact ⟨acc', rfl⟩
  | cons tag rest ih =>
    unfold visitTags at h ⊢
    cases hk : tag.Key with
    | none => simp [hk] at h
    | some key =>
      simp only [hk] at h ⊢
      by_cases hkey : key = risrStackName
      · simp only [hkey, if_true] at h ⊢
        cases hv : tag.Value with
        | none => simp [hv] at h
        | some value =>
          simp only [hv] at h ⊢
          by_cases hval : value = stackName
          · simp only [hval, if_true] at h ⊢
            cases hn : asg.AutoScalingGroupName with
            | none => simp [hn] at h
            | some name =>
              simp only [hn] at h ⊢
              by_cases hne : name = newASG
              · simp only [hne, ne_eq, not_true_eq_false, if_false] at h ⊢
                exact ih _ _ h
              · simp only [ne_eq, hne, not_false_eq_true, if_true] at h ⊢
                exact ih _ _ h
          · simp only [hval, if_false] at h ⊢
            exact ih _ _ h
      · simp only [hkey, if_false] at h ⊢
        exact ih _ _ h

theorem visitGroups_ok_each (stackName newASG : String) (groups : List Group)
    (acc l : List String) (h : visitGroups stackName newASG groups acc = .ok l) :
    ∀ g ∈ groups, ∃ l', visitTags stackName newASG g g.Tags [] = .ok l' := by
  induction groups generalizing acc with
  | nil => simp
  | cons asg rest ih =>
    unfold visitGroups at h
    cases hv : visitTags stackName newASG asg asg.Tags acc with
    | ok acc1 =>
      simp only [hv] at h
      intro g hg
      rcases List.mem_cons.mp hg with rfl | hg
      · exact visitTags_ok_any stackName newASG g g.Tags acc [] acc1 hv
      · exact ih acc1 h g hg
    | error e => simp [hv] at h
    | panic => simp [hv] at h

theorem visitGroups_of_each (stackName newASG : String) (groups : List Group)
    (acc : List String)
    (h : ∀ g ∈ groups, ∃ l', visitTags stackName newASG g g.Tags [] = .ok l') :
    ∃ l, visitGroups stackName newASG groups acc = .ok l := by
  induction groups generalizing acc with
  | nil => exact ⟨acc, rfl⟩
  | cons asg rest ih =>
    obtain ⟨l0, h0⟩ := h asg (List.mem_cons_self _ _)
    obtain ⟨acc1, h1⟩ := visitTags_ok_any stackName newASG asg asg.Tags [] acc l0 h0
    obtain ⟨l, hl⟩ := ih acc1 (fun g hg => h g (List.mem_cons_of_mem _ hg))
    exact ⟨l, by simp [visitGroups, h1, hl]⟩

theorem visitPages_ok_each (stackName newASG : String) (pages : List (List Group))
    (acc l : List String) (h : visitPages stackName newASG pages acc = .ok l) :
    ∀ g ∈ pages.flatten, ∃ l', visitTags stackName newASG g g.Tags [] = .ok l' := by
  induction pages generalizing acc with
  | nil => simp
  | cons page rest ih =>
    unfold visitPages at h
    cases hv : visitGroups stackName newASG page acc with
    | ok acc1 =>
      simp only [hv] at h
      intro g hg
      rw [List.flatten_cons, List.mem_append] at hg
      rcases hg with hg | hg
      · exact visitGroups_ok_each stackName newASG page acc acc1 hv g hg
      · exact ih acc1 h g hg
    | error e => simp [hv] at h
    | panic => simp [hv] at h

theorem visitPages_of_each (stackName newASG : String) (pages : List (List Group))
    (acc : List String)
    (h : ∀ g ∈ pages.flatten, ∃ l', visitTags stackName newASG g g.Tags [] = .ok l') :
    ∃ l, visitPages stackName newASG pages acc = .ok l := by
  induction pages generalizing acc with
  | nil => exact ⟨acc, rfl⟩
  | cons page rest ih =>
    obtain ⟨acc1, h1⟩ := visitGroups_of_each stackName newASG page acc
      (fun g hg => h g (by rw [List.flatten_cons, List.mem_append]; exact Or.inl hg))
    obtain ⟨l, hl⟩ := ih acc1
      (fun g hg => h g (by rw [List.flatten_cons, List.mem_append]; exact Or.inr hg))
    exact ⟨l, by simp [visitPages, h1, hl]⟩

theorem deleteLoop_account (paginate : List Group → List (List Group)) (dels : List String)
    (account : List Group) (trace : List Event) :
    (deleteLoop (accountProvider paginate) dels ⟨account, trace⟩).1 = .ok () ∧
    (deleteLoop (accountProvider paginate) dels ⟨account, trace⟩).2.state =
      account.filter (fun g => decide (∀ n ∈ dels, g.AutoScalingGroupName ≠ some n)) := by
  induction dels generalizing account trace with
  | nil => simp [deleteLoop]
  | cons del rest ih =>
    have hstep : deleteLoop (accountProvider paginate) (del :: rest) ⟨account, trace⟩ =
        deleteLoop (accountProvider paginate) rest
          ⟨account.filter (fun g => decide (g.AutoScalingGroupName ≠ some del)),
            trace ++ [deleteEvent del none]⟩ := by
      simp [deleteLoop, accountProvider, deleteEvent]
    rw [hstep]
    obtain ⟨h1, h2⟩ := ih (account.filter (fun g => decide (g.AutoScalingGroupName ≠ some del)))
      (trace ++ [deleteEvent del none])
    refine ⟨h1, ?_⟩
    rw [h2, List.filter_filter]
    congr 1
    funext g
    simp only [List.mem_cons, forall_eq_or_imp, Bool.decide_and, Bool.and_comm]

theorem singlePages_flatten (account : List Group) : (singlePages account).flatten = account := by
  induction account with
  | nil => rfl
  | cons g rest ih =>
    simp only [singlePages, List.map_cons, List.flatten_cons, List.singleton_append] at ih ⊢
    rw [ih]

/-- C19: over the account provider (the state is the list of groups, a forced
delete removes the groups with the given name, the enumeration delivers the
account in pages), after a run of `dropOldASGs` that returned success, a second
run with the same arguments returns success, issues the enumeration and no
delete call, and leaves the account unchanged. -/
theorem dropOldASGs_idempotent (paginate : List Group → List (List Group))
    (hpages : ∀ account, (paginate account).flatten = account)
    (stackName newASG : String) (w : World (List Group))
    (hok : (dropOldASGs (accountProvider paginate) stackName newASG w).1 = .ok ()) :
    (dropOldASGs (accountProvider paginate) stackName newASG
      (dropOldASGs (accountProvider paginate) stackName newASG w).2).1 = .ok () ∧
    (dropOldASGs (accountProvider paginate) stackName newASG
      (dropOldASGs (accountProvider paginate) stackName newASG w).2).2.trace =
      (dropOldASGs (accountProvider paginate) stackName newASG w).2.trace ++
        [⟨.DescribeAutoScalingGroupsPages, none⟩] ∧
    deleteCalls (dropOldASGs (accountProvider paginate) stackName newASG
      (dropOldASGs (accountProvider paginate) stackName newASG w).2).2.trace =
      deleteCalls (dropOldASGs (accountProvider paginate) stackName newASG w).2.trace ∧
    (dropOldASGs (accountProvider paginate) stackName newASG
      (dropOldASGs (accountProvider paginate) stackName newASG w).2).2.state =
      (dropOldASGs (accountProvider paginate) stackName newASG w).2.state := by
  have henum : ∀ v : World (List Group),
      (accountProvider paginate).DescribeAutoScalingGroupsPages v.state =
        ((paginate v.state, none), v.state) := fun _ => rfl
  cases hv : visitPages stackName newASG (paginate w.state) [] with
  | ok dels =>
    have hdels : dels = w.state.flatMap (entries stackName newASG) := by
      rw [visitPages_ok stackName newASG (paginate w.state) [] dels hv, hpages, List.nil_append]
    have hsafe := visitPages_ok_each stackName newASG (paginate w.state) [] dels hv
    rw [hpages] at hsafe
    have hfirst := dropOldASGs_of_ok (accountProvider paginate) w stackName newASG
      (paginate w.state) none w.state dels (henum w) hv
    simp only at hfirst
    obtain ⟨_, hstate⟩ := deleteLoop_account paginate dels w.state
      (w.trace ++ [⟨.DescribeAutoScalingGroupsPages, none⟩])
    rw [← hfirst] at hstate
    generalize dropOldASGs (accountProvider paginate) stackName newASG w = first at hstate ⊢
    have hmem : ∀ g ∈ first.2.state, g ∈ w.state ∧ entries stackName newASG g = [] := by
      intro g hg
      rw [hstate, List.mem_filter, decide_eq_true_eq] at hg
      refine ⟨hg.1, List.eq_nil_iff_forall_not_mem.mpr ?_⟩
      intro n hn
      have hname := ((mem_entries stackName newASG g n).mp hn).1
      exact hg.2 n (by rw [hdels]; exact List.mem_flatMap.mpr ⟨g, hg.1, hn⟩) hname
    obtain ⟨l2, hv2⟩ := visitPages_of_each stackName newASG (paginate first.2.state) []
      (by rw [hpages]; exact fun g hg => hsafe g (hmem g hg).1)
    have hl2 : l2 = [] := by
      rw [visitPages_ok stackName newASG (paginate first.2.state) [] l2 hv2, hpages,
        List.nil_append]
      apply List.eq_nil_iff_forall_not_mem.mpr
      intro n hn
      obtain ⟨g, hg, hgn⟩ := List.mem_flatMap.mp hn
      rw [(hmem g hg).2] at hgn
      exact absurd hgn (List.not_mem_nil _)
    rw [hl2] at hv2
    have hsecond := dropOldASGs_of_ok (accountProvider paginate) first.2 stackName newASG
      (paginate first.2.state) none first.2.state [] (henum first.2) hv2
    simp only [deleteLoop] at hsecond
    rw [hsecond]
    refine ⟨rfl, rfl, ?_, rfl⟩
    rw [deleteCalls_append]
    simp [deleteCalls]
  | error e =>
    exact absurd hok (dropOldASGs_of_not_ok (accountProvider paginate) w stackName newASG
      (paginate w.state) none w.state (henum w) (by intro l; rw [hv]; simp)).1
  | panic =>
    exact absurd hok (dropOldASGs_of_not_ok (accountProvider paginate) w stackName newASG
      (paginate w.state) none w.state (henum w) (by intro l; rw [hv]; simp)).1

/-- C19 at a concrete run: reaping stack `web` twice over the account of
`accountPages`, one group per page. -/
theorem dropOldASGs_idempotent_witness :
    (dropOldASGs (accountProvider singlePages) "web" "web-new"
      ⟨accountPages.flatten, []⟩).2.state = [apiGroup, newGroup] ∧
    (dropOldASGs (accountProvider singlePages) "web" "web-new"
      (dropOldASGs (accountProvider singlePages) "web" "web-new"
        ⟨accountPages.flatten, []⟩).2).1 = .ok () ∧
    (dropOldASGs (accountProvider singlePages) "web" "web-new"
      (dropOldASGs (accountProvider singlePages) "web" "web-new"
        ⟨accountPages.flatten, []⟩).2).2.trace =
      (dropOldASGs (accountProvider singlePages) "web" "web-new"
        ⟨accountPages.flatten, []⟩).2.trace ++ [⟨.DescribeAutoScalingGroupsPages, none⟩] ∧
    deleteCalls (dropOldASGs (accountProvider singlePages) "web" "web-new"
      (dropOldASGs (accountProvider singlePages) "web" "web-new"
        ⟨accountPages.flatten, []⟩).2).2.trace =
      deleteCalls (dropOldASGs (accountProvider singlePages) "web" "web-new"
        ⟨accountPages.flatten, []⟩).2.trace ∧
    (dropOldASGs (accountProvider singlePages) "web" "web-new"
      (dropOldASGs (accountProvider singlePages) "web" "web-new"
        ⟨accountPages.flatten, []⟩).2).2.state =
      (dropOldASGs (accountProvider singlePages) "web" "web-new"
        ⟨accountPages.flatten, []⟩).2.state :=
  ⟨by decide, dropOldASGs_idempotent singlePages singlePages_flatten "web" "web-new"
    ⟨accountPages.flatten, []⟩ (by decide)⟩

/-! ## What a healthy answer of the target-group strategy guarantees -/

/-- C20 at the failing input: for `webGroup` (instances `i-1` and `i-2`, desired
capacity 2) with `i-1` registered twice and `i-2` not registered,
`getTargetsHealth` returns healthy although no description has target id `i-2`;
with `webTargetsMissing` it returns healthy although the description of `i-2`
has no state. -/
theorem getTargetsHealth_unregistered_instance :
    (getTargetsHealth (tableProvider (.ok [webGroup]) ([], none) (.ok webTargetsTwice) [])
      "web-1" "arn:tg/x" World.start).1 = .ok true ∧
    (∃ i ∈ webGroup.Instances, i.InstanceId = some "i-2") ∧
    (¬ ∃ t ∈ webTargetsTwice, t.targetId = some "i-2" ∧ t.state = some "healthy") ∧
    (getTargetsHealth (tableProvider (.ok [webGroup]) ([], none) (.ok webTargetsMissing) [])
      "web-1" "arn:tg/x" World.start).1 = .ok true ∧
    (¬ ∃ t ∈ webTargetsMissing, t.targetId = some "i-2" ∧ t.state = some "healthy") := by
  decide

end Risr
